import Mathlib

/-!
Verification development for the resume-processing core of
`workua-resume-toolkit` (`src/workua_toolkit/processing/`).

The Python sources are shallowly embedded: each Python function of the
processing pipeline becomes an executable Lean definition of the same name
(modulo Lean naming rules).  Python strings are modelled as `String` /
`List Char`; `None` becomes `Option`; a raised exception becomes
`Except PyErr`.  Regular expressions used by the source are hand-compiled
into explicit scanners over `List Char` that follow Python `re` leftmost /
lazy / greedy semantics for the concrete patterns involved.

Wall-clock access (`date.today()`) is injected as an explicit `nowYM`
argument, and the iteration order of a CPython `set` (used once, in
`UniversalResumeProcessor.process_payload`) is injected as an explicit
`setOrder` argument, since CPython leaves it unspecified (hash-randomised).
-/

set_option maxRecDepth 4000

namespace WorkUA

/-- Python exceptions that the modelled code can raise. -/
inductive PyErr where
  /-- Models `NameError` / `UnboundLocalError`: the named variable is not bound. -/
  | nameError (var : String)
  deriving Repr, DecidableEq

/-- ASCII whitespace recognised by Python's `\s` and `str.strip()`
(the inputs handled by this pipeline contain no exotic Unicode spaces). -/
def isPySpace (c : Char) : Bool :=
  c = ' ' || c = '\t' || c = '\n' || c = '\r' || c = '\x0b' || c = '\x0c'

def isAsciiDigit (c : Char) : Bool := '0' ≤ c && c ≤ '9'

/-- Python `\w` (re, Unicode mode) restricted to the alphabets this code
meets: ASCII letters/digits/underscore and the Cyrillic block U+0400–U+04FF
(which contains all Ukrainian and Russian letters used by the source). -/
def isWordChar (c : Char) : Bool :=
  ('a' ≤ c && c ≤ 'z') || ('A' ≤ c && c ≤ 'Z') || isAsciiDigit c || c = '_' ||
  (c.val ≥ 0x400 && c.val ≤ 0x4ff)

/-- Models `str.lower()` restricted to ASCII and the Cyrillic letters used by the
source texts (А–Я, Ё, and the Ukrainian І Ї Є Ґ). -/
def lowerChar (c : Char) : Char :=
  if 'A' ≤ c && c ≤ 'Z' then Char.ofNat (c.toNat + 32)
  else if c.val ≥ 0x410 && c.val ≤ 0x42f then Char.ofNat (c.toNat + 32)
  else if c = 'Ё' then 'ё'
  else if c = 'І' then 'і'
  else if c = 'Ї' then 'ї'
  else if c = 'Є' then 'є'
  else if c = 'Ґ' then 'ґ'
  else c

/-- Models `str.upper()` on the same restricted alphabet. -/
def upperChar (c : Char) : Char :=
  if 'a' ≤ c && c ≤ 'z' then Char.ofNat (c.toNat - 32)
  else if c.val ≥ 0x430 && c.val ≤ 0x44f then Char.ofNat (c.toNat - 32)
  else if c = 'ё' then 'Ё'
  else if c = 'і' then 'І'
  else if c = 'ї' then 'Ї'
  else if c = 'є' then 'Є'
  else if c = 'ґ' then 'Ґ'
  else c

def lowerL (l : List Char) : List Char := l.map lowerChar

/-- Models `str.strip()` on a character list. -/
def pyStripL (l : List Char) : List Char :=
  ((l.dropWhile isPySpace).reverse.dropWhile isPySpace).reverse

/-- Models `str.strip(chars)`: strip any of the given characters from both ends. -/
def stripCharsL (set : List Char) (l : List Char) : List Char :=
  ((l.dropWhile (set.contains ·)).reverse.dropWhile (set.contains ·)).reverse

def pyStrip (s : String) : String := ⟨pyStripL s.data⟩

def stripChars (set : List Char) (s : String) : String := ⟨stripCharsL set s.data⟩

def pyLower (s : String) : String := ⟨lowerL s.data⟩

/-- Split a character list at every occurrence of any character in `seps`,
keeping empty pieces (Python `str.split(sep)` per single separator;
callers that split on a `[...]+` regex filter the empties afterwards). -/
def splitAnyL (seps : List Char) : List Char → List (List Char)
  | [] => [[]]
  | c :: cs =>
      if seps.contains c then [] :: splitAnyL seps cs
      else match splitAnyL seps cs with
           | [] => [[c]]
           | p :: ps => (c :: p) :: ps

/-- Accumulator worker for `runsOf`; `acc` holds the current run reversed. -/
def runsOfAux (p : Char → Bool) : List Char → List Char → List (List Char)
  | [], acc => if acc.isEmpty then [] else [acc.reverse]
  | c :: cs, acc =>
      if p c then runsOfAux p cs (c :: acc)
      else if acc.isEmpty then runsOfAux p cs []
      else acc.reverse :: runsOfAux p cs []

/-- Maximal runs of characters satisfying `p` (used for `re.findall(r"\w+")`
and whitespace-separated word counting). -/
def runsOf (p : Char → Bool) (l : List Char) : List (List Char) := runsOfAux p l []

/-- Collapse every maximal whitespace run to a single blank
(`re.sub(r"\s+", " ", s)`). -/
def collapseWs : List Char → List Char
  | [] => []
  | c :: cs =>
      if isPySpace c then
        match cs with
        | [] => [' ']
        | d :: ds => if isPySpace d then collapseWs (d :: ds) else ' ' :: collapseWs (d :: ds)
      else c :: collapseWs cs

/-- Does `needle` occur as a contiguous substring of `hay` (Python `in`)? -/
def hasSub (needle : List Char) : List Char → Bool
  | [] => needle.isEmpty
  | c :: cs => needle.isPrefixOf (c :: cs) || hasSub needle cs

/-- Match the literal `w` case-insensitively at the head of `s`;
returns the remainder on success. -/
def matchCI : List Char → List Char → Option (List Char)
  | [], rest => some rest
  | _ :: _, [] => none
  | w :: ws, c :: cs => if lowerChar c = lowerChar w then matchCI ws cs else none

/-- Match the literal `w` case-sensitively at the head of `s`. -/
def matchCS : List Char → List Char → Option (List Char)
  | [], rest => some rest
  | _ :: _, [] => none
  | w :: ws, c :: cs => if c = w then matchCS ws cs else none

/-- Try a list of literal alternatives in order (regex `(a|b|c)` semantics),
case-insensitively; returns the alternative that matched and the remainder. -/
def tryAltsCI (alts : List (List Char)) (s : List Char) : Option (List Char × List Char) :=
  match alts with
  | [] => none
  | a :: rest =>
      match matchCI a s with
      | some r => some (a, r)
      | none => tryAltsCI rest s

/-- Case-sensitive variant of `tryAltsCI`. -/
def tryAltsCS (alts : List (List Char)) (s : List Char) : Option (List Char × List Char) :=
  match alts with
  | [] => none
  | a :: rest =>
      match matchCS a s with
      | some r => some (a, r)
      | none => tryAltsCS rest s

/-- A word boundary `\b` to the left: no previous character, or the previous
character is not a word character. -/
def boundaryBefore (prev : Option Char) : Bool :=
  match prev with
  | none => true
  | some c => !isWordChar c

/-- A word boundary `\b` to the right of a match: end of input or a
non-word character follows. -/
def boundaryAfter : List Char → Bool
  | [] => true
  | c :: _ => !isWordChar c

/-- Generic leftmost regex search: try the matcher at every suffix
(tracking the preceding character for `\b` / lookbehind checks) and return
the first success. -/
def searchL {α : Type} (f : Option Char → List Char → Option α) :
    Option Char → List Char → Option α
  | prev, [] => f prev []
  | prev, c :: cs =>
      match f prev (c :: cs) with
      | some a => some a
      | none => searchL f (some c) cs

/-- Digits of a run interpreted as a natural number. -/
def digitsToNat (l : List Char) : Nat :=
  l.foldl (fun n c => n * 10 + (c.toNat - '0'.toNat)) 0

/-- Python `int(s)` for the shapes met here: optional surrounding
whitespace, optional sign, one or more ASCII digits; anything else raises
(`none`). -/
def pyIntOfString (s : String) : Option Int :=
  let t := pyStripL s.data
  match t with
  | '-' :: ds => if !ds.isEmpty && ds.all isAsciiDigit then some (-(digitsToNat ds : Int)) else none
  | '+' :: ds => if !ds.isEmpty && ds.all isAsciiDigit then some ((digitsToNat ds : Int)) else none
  | ds => if !ds.isEmpty && ds.all isAsciiDigit then some ((digitsToNat ds : Int)) else none

-- ---------------------------------------------------------------------
-- Date/Duration engine (`regex_extractor.py`)
-- ---------------------------------------------------------------------

/-- Models `_ym_to_int`: `"YYYY-MM" -> YYYY*12 + MM`.  `none` models the
`ValueError`/unpacking exception Python raises on malformed input. -/
def ym_to_int (ym : String) : Option Int :=
  match splitAnyL ['-'] ym.data with
  | [y, m] =>
      match pyIntOfString (⟨y⟩ : String), pyIntOfString (⟨m⟩ : String) with
      | some a, some b => some (a * 12 + b)
      | _, _ => none
  | _ => none

/-- Models `calc_months`: inclusive number of months between `start_ym` and
`end_ym`; `0` if either is empty or the end precedes the start.  `none`
models the exception raised on a non-empty, non-`"YYYY-MM"` token. -/
def calc_months (start_ym end_ym : String) : Option Int :=
  if start_ym = "" || end_ym = "" then some 0
  else
    match ym_to_int start_ym, ym_to_int end_ym with
    | some a, some b => some (if b < a then 0 else (b - a) + 1)
    | _, _ => none

/-- Models `datetime.date` with the day always `1`, as constructed by the source. -/
structure PyDate where
  y : Int
  m : Int
  d : Int
  deriving Repr, DecidableEq

/-- Python `date` comparison (lexicographic on year, month, day). -/
def pyDateLt (a b : PyDate) : Bool :=
  a.y < b.y || (a.y = b.y && (a.m < b.m || (a.m = b.m && a.d < b.d)))

/-- Models `months_between`: inclusive month span between two dates, `0` if the
end precedes the start. -/
def months_between (a b : PyDate) : Int :=
  if pyDateLt b a then 0 else (b.y - a.y) * 12 + (b.m - a.m) + 1

/-- Models `fmt_years_1dp`: `months/12` rounded to one decimal, `None` for a
non-positive month count.  The source formats the IEEE double with
`f"{years:.1f}"`; this model rounds the exact rational to one decimal
(round-half-up).  The two differ only on exact halfway decimals, which no
statement below depends on. -/
def fmt_years_1dp (months : Int) : Option ℚ :=
  if months ≤ 0 then none
  else some ((round ((months : ℚ) / 12 * 10) : ℚ) / 10)

-- ---------------------------------------------------------------------
-- Normalisation helpers (`processor.py`)
-- ---------------------------------------------------------------------

/-- Models `norm_skill`: strip, lowercase, collapse inner whitespace. -/
def norm_skill (s : String) : String :=
  ⟨collapseWs (lowerL (pyStripL s.data))⟩

/-- Punctuation class of `norm_title`'s first substitution. -/
def normTitlePunct : List Char := ['(', ')', '[', ']', ',', '.', ';', ':']

/-- Models `norm_title`: lowercase, punctuation to blanks, collapse and strip
whitespace. -/
def norm_title (t : String) : String :=
  ⟨pyStripL (collapseWs ((lowerL t.data).map
    (fun c => if normTitlePunct.contains c then ' ' else c)))⟩

-- ---------------------------------------------------------------------
-- Driving-category extraction (`regex_extractor.py`)
-- ---------------------------------------------------------------------

/-- Letter class `[A-ZА-Я]` under `re.IGNORECASE`. -/
def isDrivingLetter (c : Char) : Bool :=
  ('A' ≤ c && c ≤ 'Z') || ('a' ≤ c && c ≤ 'z') || (c.val ≥ 0x410 && c.val ≤ 0x44f)

/-- One attempted match of `_DRIVING_RE` = `\bкат\.?\s*([A-ZА-Я]{1,2})\b`
(ignore-case) at the current position; returns (uppercased capture, last
consumed char, remainder). -/
def drivingMarkerAt (prev : Option Char) (s : List Char) : Option (String × Char × List Char) :=
  if !boundaryBefore prev then none
  else
    match matchCI ['к', 'а', 'т'] s with
    | none => none
    | some r1 =>
        let r2 := match r1 with
                  | '.' :: rest => rest
                  | _ => r1
        let r3 := r2.dropWhile isPySpace
        match r3 with
        | a :: b :: rest =>
            if isDrivingLetter a && isDrivingLetter b && boundaryAfter rest then
              some (⟨[upperChar a, upperChar b]⟩, b, rest)
            else if isDrivingLetter a && boundaryAfter (b :: rest) then
              some (⟨[upperChar a]⟩, a, b :: rest)
            else none
        | [a] =>
            if isDrivingLetter a then some (⟨[upperChar a]⟩, a, []) else none
        | [] => none

/-- Models `finditer` over `_DRIVING_RE` (fuelled scan; fuel = input length). -/
def drivingMarkerScan : Nat → Option Char → List Char → List String
  | 0, _, _ => []
  | _ + 1, _, [] => []
  | fuel + 1, prev, c :: cs =>
      match drivingMarkerAt prev (c :: cs) with
      | some (cap, last, rest) => cap :: drivingMarkerScan fuel (some last) rest
      | none => drivingMarkerScan fuel (some c) cs

/-- The alternatives of `\b(A|B|C|D|BE|CE|DE)\b` in the source's order. -/
def bareCatAlts : List (List Char) :=
  [['A'], ['B'], ['C'], ['D'], ['B', 'E'], ['C', 'E'], ['D', 'E']]

/-- Try the alternatives in order, each with a `\b` after (backtracking
into the alternation when the boundary fails, as `re` does). -/
def tryAltsCSBounded (alts : List (List Char)) (s : List Char) : Option (List Char × Char × List Char) :=
  match alts with
  | [] => none
  | a :: restAlts =>
      match matchCS a s with
      | some r =>
          if boundaryAfter r then
            match a.getLast? with
            | some last => some (a, last, r)
            | none => none
          else tryAltsCSBounded restAlts s
      | none => tryAltsCSBounded restAlts s

/-- Models `re.findall(r"\b(A|B|C|D|BE|CE|DE)\b", text)` (case-sensitive). -/
def bareCatScan : Nat → Option Char → List Char → List String
  | 0, _, _ => []
  | _ + 1, _, [] => []
  | fuel + 1, prev, c :: cs =>
      if boundaryBefore prev then
        match tryAltsCSBounded bareCatAlts (c :: cs) with
        | some (a, last, rest) => (⟨a⟩ : String) :: bareCatScan fuel (some last) rest
        | none => bareCatScan fuel (some c) cs
      else bareCatScan fuel (some c) cs

/-- The fixed canonical category order of `extract_driving_categories`. -/
def drivingOrder : List String := ["A", "B", "BE", "C", "CE", "D", "DE"]

/-- The set `cats` accumulated by `extract_driving_categories` (as the list
of all captures; only membership matters below). -/
def drivingCats (text : String) : List String :=
  drivingMarkerScan text.data.length none text.data ++
  bareCatScan text.data.length none text.data

/-- Models `extract_driving_categories`: all categories mentioned in `text`,
deduplicated and listed in the fixed canonical order. -/
def extract_driving_categories (text : String) : List String :=
  let cats := drivingCats text
  drivingOrder.filter (fun c => cats.contains c)

/-- Models `driving_cats_from_skill_months`: categories re-derived from the keys
of the skill-months mapping (insertion-ordered association list). -/
def driving_cats_from_skill_months (skill_months : List (String × Int)) : List String :=
  skill_months.foldl
    (fun cats kv =>
      (extract_driving_categories kv.1).foldl
        (fun cats c => if cats.contains c then cats else cats ++ [c]) cats)
    []

-- ---------------------------------------------------------------------
-- Duty splitter (`regex_extractor.py`)
-- ---------------------------------------------------------------------

/-- Python `str.splitlines()` restricted to `\n` (the pipeline's section
texts are `\n`-separated; no other line terminators occur upstream). -/
def pySplitlines (s : String) : List String :=
  (splitAnyL ['\n'] s.data).map (fun l => (⟨l⟩ : String))

/-- Models `" ".join`. -/
def joinSpace (l : List String) : String := String.intercalate " " l

/-- Models `_normalize_ws`: strip then collapse inner whitespace. -/
def normalize_ws (s : String) : String := ⟨collapseWs (pyStripL s.data)⟩

/-- Consume an optional single character from `cls` (regex `[...]?`). -/
def matchOptChar (cls : List Char) (r : List Char) : List Char :=
  match r with
  | c :: rest => if cls.contains c then rest else r
  | [] => r

/-- Match `обов<apostrophe-class>?<optional \s*>язки` case-insensitively. -/
def matchObovYazky (aposCls : List Char) (wsBetween : Bool) (s : List Char) : Option (List Char) :=
  (matchCI ['о', 'б', 'о', 'в'] s).bind (fun r =>
    let r1 := matchOptChar aposCls r
    let r2 := if wsBetween then r1.dropWhile isPySpace else r1
    matchCI ['я', 'з', 'к', 'и'] r2)

/-- Models `has_duties_prefix` in the source — does the string start with
`DUTIES_PREFIX_RE` = `^\s*(обов[’']?язки|обов'язки|обязанности|duties)\s*:\s*`? -/
def has_duties_marker (s : String) : Bool :=
  let r := s.data.dropWhile isPySpace
  let afterWord : Option (List Char) :=
    match matchObovYazky ['’', '\''] false r with
    | some r1 => some r1
    | none =>
        match matchCI "обязанности".data r with
        | some r1 => some r1
        | none => matchCI "duties".data r
  match afterWord with
  | none => false
  | some r1 =>
      match (r1.dropWhile isPySpace) with
      | ':' :: _ => true
      | _ => false

/-- Models `strip_headers`: `.strip()` then remove a leading
`HEADER_PREFIX_RE` = `^\s*(обов[’'<backtick>]?язки|обязанности|обовязки|osobysti yakosti|особисті якості)\s*:?\s*` match. -/
def strip_headers (s : String) : String :=
  let t := pyStripL s.data
  let r := t.dropWhile isPySpace
  let afterWord : Option (List Char) :=
    match matchObovYazky ['’', '\'', Char.ofNat 96] false r with
    | some r1 => some r1
    | none =>
        match matchCI "обязанности".data r with
        | some r1 => some r1
        | none =>
            match matchCI "обовязки".data r with
            | some r1 => some r1
            | none =>
                match matchCI "osobysti yakosti".data r with
                | some r1 => some r1
                | none => matchCI "особисті якості".data r
  match afterWord with
  | none => ⟨t⟩
  | some r1 =>
      let r2 := r1.dropWhile isPySpace
      let r3 := match r2 with
                | ':' :: rest => rest
                | _ => r2
      ⟨r3.dropWhile isPySpace⟩

/-- The effective `is_bullet_line` (the second definition in the source,
via `_BULLET_PREFIX_RE`): after leading blanks the line starts with a
bullet glyph. -/
def bulletGlyphs : List Char := ['•', '-', '*']

def is_bullet_line (s : String) : Bool :=
  match (pyStripL s.data).dropWhile isPySpace with
  | c :: _ => bulletGlyphs.contains c
  | [] => false

/-- Models `strip_bullets`: remove the `_BULLET_PREFIX_RE` prefix from the
stripped line, then strip again.  The regex
`^\s*[•\-\*•]+\s*(?:[•\-\*•]+\s*)*` consumes, greedily, the whole
maximal leading run of bullet glyphs and blanks once the first (non-blank)
character is a bullet glyph. -/
def strip_bullets (line : String) : String :=
  let t := pyStripL line.data
  match t with
  | c :: _ =>
      if bulletGlyphs.contains c then
        ⟨pyStripL (t.dropWhile (fun d => bulletGlyphs.contains d || isPySpace d))⟩
      else ⟨t⟩
  | [] => ⟨t⟩

/-- Models `clean_bullet_prefix` in the source, via
`BULLET_RE` = `^\s*([•\-\*]+|\d+[\.\)\:])\s+`: remove the marker only when
followed by at least one blank. -/
def clean_bullet_marker (s : String) : String :=
  let t := pyStripL s.data
  let r := t.dropWhile isPySpace
  let afterMark : Option (List Char) :=
    match r with
    | c :: _ =>
        if bulletGlyphs.contains c then
          some (r.dropWhile (bulletGlyphs.contains ·))
        else if isAsciiDigit c then
          match (r.dropWhile isAsciiDigit) with
          | p :: rest => if p = '.' || p = ')' || p = ':' then some rest else none
          | [] => none
        else none
    | [] => none
  match afterMark with
  | some (w :: rest) => if isPySpace w then ⟨rest.dropWhile isPySpace⟩ else ⟨t⟩
  | _ => ⟨t⟩

/-- Worker for `split_outside_parens`: raw pieces split at depth-0
separators (pieces still unstripped, empties kept). -/
def sopAux (seps : List Char) : List Char → Nat → List Char → List (List Char)
  | [], _, buf => [buf.reverse]
  | ch :: rest, depth, buf =>
      let depth' := if ch = '(' then depth + 1
                    else if ch = ')' then depth - 1
                    else depth
      if depth' = 0 && seps.contains ch then
        buf.reverse :: sopAux seps rest 0 []
      else sopAux seps rest depth' (ch :: buf)

/-- Models `split_outside_parens`: split on the separator characters, but only at
parenthesis nesting depth zero; pieces are stripped and empties dropped. -/
def split_outside_parens (text : String) (seps : List Char) : List String :=
  (sopAux seps text.data 0 []).filterMap (fun p =>
    let q := pyStripL p
    if q.isEmpty then none else some (⟨q⟩ : String))

/-- The piece-trimming character set `" -–—\t"` of `split_duties`. -/
def dutyTrimSet : List Char := [' ', '-', '–', '—', '\t']

/-- Strip `" -–—\t"` from both ends, dropping the piece if it empties. -/
def trimDutyPiece (p : String) : Option String :=
  let q := stripCharsL dutyTrimSet p.data
  if q.isEmpty then none else some (⟨q⟩ : String)

/-- The piece-trimming set `" -–—\t,"` of `split_duties_strict_dot_semi`. -/
def trimDutyPieceStrict (p : String) : Option String :=
  let q := stripCharsL (dutyTrimSet ++ [',']) p.data
  if q.isEmpty then none else some (⟨q⟩ : String)

/-- Models `split_duties_strict_dot_semi`: normalise whitespace, split on `.`/`;`
outside parentheses, trim pieces. -/
def split_duties_strict_dot_semi (text : String) : List String :=
  let t := normalize_ws text
  if t = "" then []
  else (split_outside_parens t ['.', ';']).filterMap trimDutyPieceStrict

/-- Models `is_ignorable_header_line`, via `_IGNORE_HEADERS_RE` =
`^\s*(ОСОБИСТІ\s+ЯКОСТІ|ОБОВ['’]?\s*ЯЗКИ|ОБОВЯЗКИ|ОБЯЗАННОСТИ)\s*:?\s*$`
(ignore-case, full match on the stripped line). -/
def is_ignorable_header_line (line : String) : Bool :=
  let t := pyStripL line.data
  let r := t.dropWhile isPySpace
  let afterWord : Option (List Char) :=
    match matchCI "особисті".data r with
    | some r1 =>
        match r1 with
        | c :: rest =>
            if isPySpace c then matchCI "якості".data (rest.dropWhile isPySpace) else none
        | [] => none
    | none =>
        match matchObovYazky ['\'', '’'] true r with
        | some r1 => some r1
        | none =>
            match matchCI "обовязки".data r with
            | some r1 => some r1
            | none => matchCI "обязанности".data r
  match afterWord with
  | none => false
  | some r1 =>
      let r2 := r1.dropWhile isPySpace
      let r3 := match r2 with
                | ':' :: rest => rest
                | _ => r2
      (r3.dropWhile isPySpace).isEmpty

/-- The literal header strings split_duties drops when a whole line equals
one of them (lower-cased comparison). -/
def dutyHeaderWords : List String :=
  ["обов'язки", "обовязки", "обязанности", "особисті якості"]

/-- Models `split_duties`: the heuristic duty splitter. -/
def split_duties (text : String) : List String :=
  let raw := pyStrip text
  if raw = "" then []
  else
    let prefixed := has_duties_marker raw
    let s := strip_headers raw
    if s = "" || dutyHeaderWords.contains (pyLower s) then []
    else
      let lines0 := ((pySplitlines s).map pyStrip).filter (fun ln => ln ≠ "")
      let lines1 := ((lines0.map strip_headers).filter
        (fun ln => ln ≠ "" && !dutyHeaderWords.contains (pyLower ln)))
      if lines1.isEmpty then []
      else
        let bullet_lines := lines1.filter (fun ln => is_bullet_line ln)
        if !bullet_lines.isEmpty then
          ((bullet_lines.map (fun ln => strip_headers (clean_bullet_marker ln))).filter
            (fun ln => ln ≠ ""))
        else
          let s1 := pyStrip (joinSpace lines1)
          if s1 = "" then []
          else if prefixed then
            (split_outside_parens s1 ['.', ';']).filterMap trimDutyPiece
          else
            let words := (runsOf isWordChar s1.data).length
            let commas := s1.data.count ','
            if words ≥ 10 && commas ≤ max 1 (words / 12) then
              (split_outside_parens s1 ['.', ';']).filterMap trimDutyPiece
            else
              (split_outside_parens s1 [',', '.', ';']).filterMap trimDutyPiece

-- ---------------------------------------------------------------------
-- Work/education entry records (`regex_extractor.py` dataclasses)
-- ---------------------------------------------------------------------

/-- The `WorkItem` dataclass. -/
structure WorkItem where
  title : String := ""
  company : Option String := none
  city : Option String := none
  industry : Option String := none
  start : Option String := none
  «end» : Option String := none
  months : Int := 0
  duties : List String := []
  duties_text : String := ""
  block_text : String := ""
  deriving Repr, DecidableEq

/-- The `EduItem` dataclass. -/
structure EduItem where
  place : String := ""
  degree : String := ""
  specialty : String := ""
  start : Option String := none
  «end» : Option String := none
  months : Option Int := none
  extra : String := ""
  deriving Repr, DecidableEq

-- ---------------------------------------------------------------------
-- Regex scanners for the work-experience parser
-- ---------------------------------------------------------------------

/-- Take exactly `n` ASCII digits. -/
def takeExactDigits : Nat → List Char → Option (List Char × List Char)
  | 0, s => some ([], s)
  | n + 1, c :: cs =>
      if isAsciiDigit c then (takeExactDigits n cs).map (fun p => (c :: p.1, p.2)) else none
  | _ + 1, [] => none

/-- Try digit-group widths in the given (greedy) order. -/
def takeDigitsWidths (widths : List Nat) (s : List Char) : Option (List Char × List Char) :=
  match widths with
  | [] => none
  | w :: ws =>
      match takeExactDigits w s with
      | some p => some p
      | none => takeDigitsWidths ws s

/-- First success of `f` over a candidate list (backtracking order). -/
def firstSome {α β : Type} (f : α → Option β) : List α → Option β
  | [] => none
  | a :: rest =>
      match f a with
      | some b => some b
      | none => firstSome f rest

/-- Candidate remainders after `\s+`, greedy order (longest run first). -/
def spaces1Cands (s : List Char) : List (List Char) :=
  let n := (s.takeWhile isPySpace).length
  (List.range n).map (fun i => s.drop (n - i))

/-- Candidate `(group, rest)` splits for a lazy `(.+?)`, shortest first
(the lines scanned contain no newline, so `.` is unrestricted here). -/
def lazyDot1Cands (s : List Char) : List (List Char × List Char) :=
  (List.range s.length).map (fun i => (s.take (i + 1), s.drop (i + 1)))

/-- Search for `(\d{2})\.(\d{4})` (the `_RE_MMYYYY` pattern) at one
position. -/
def mmYYYYAt (s : List Char) : Option (List Char × List Char × List Char) :=
  (takeExactDigits 2 s).bind (fun p =>
    match p.2 with
    | '.' :: r => (takeExactDigits 4 r).map (fun q => (p.1, q.1, q.2))
    | _ => none)

/-- Models `_RE_MMYYYY.search`: does the text contain `\d{2}\.\d{4}`? -/
def hasMMYYYY (s : List Char) : Bool :=
  (searchL (fun _ t => mmYYYYAt t) none s).isSome

/-- Models `finditer` over `_RE_MMYYYY` (fuelled, non-overlapping). -/
def findAllMMYYYY : Nat → List Char → List (List Char × List Char)
  | 0, _ => []
  | _ + 1, [] => []
  | fuel + 1, c :: cs =>
      match mmYYYYAt (c :: cs) with
      | some (mm, yy, rest) => (mm, yy) :: findAllMMYYYY fuel rest
      | none => findAllMMYYYY fuel cs

/-- Search a case-insensitive word alternation with `\b` on both sides. -/
def hasWordCI (alts : List (List Char)) (s : List Char) : Bool :=
  (searchL (fun prev t =>
    if boundaryBefore prev then
      match tryAltsCI alts t with
      | some (_, r) => if boundaryAfter r then some () else none
      | none => none
    else none) none s).isSome

/-- Models `is_dates_meta_line`: requires a standalone `з`/`с`, a standalone
`по`/`до`, and at least one `MM.YYYY` token. -/
def is_dates_meta_line (s : String) : Bool :=
  let t := pyStripL s.data
  if t.isEmpty then false
  else
    hasWordCI [['з'], ['с']] t &&
    hasWordCI [['п', 'о'], ['д', 'о']] t &&
    hasMMYYYY t

/-- Models `_to_yyyy_mm`. -/
def to_yyyy_mm (mm yyyy : String) : String := yyyy ++ "-" ++ mm

/-- Models `looks_like_title`: non-empty, not a dates/meta line, at most 80
characters. -/
def looks_like_title (s : String) : Bool :=
  let t := pyStrip s
  if t = "" then false
  else if is_dates_meta_line t then false
  else if t.data.length > 80 then false
  else true

/-- Python `str.replace(pat, "")` for a non-empty pattern: delete every
non-overlapping left-to-right occurrence (fuelled structural scan). -/
def deleteAllL : Nat → List Char → List Char → List Char
  | 0, _, s => s
  | _ + 1, _, [] => []
  | fuel + 1, pat, c :: cs =>
      if pat.isPrefixOf (c :: cs) then deleteAllL fuel pat ((c :: cs).drop pat.length)
      else c :: deleteAllL fuel pat cs

/-- Models `normalize_date_token`. -/
def normalize_date_token (tok : String) : Option String :=
  let t0 := lowerL (pyStripL tok.data)
  let t1 := deleteAllL t0.length "р.".data t0
  let t2 := deleteAllL t1.length "роки".data t1
  let t3 := deleteAllL t2.length "р".data t2
  let t := pyStripL t3
  -- dd.mm.yyyy / dd.mm.yy (groups greedy {1,2}, {1,2}, {2,4})
  let ddmm : Option (List Char × List Char × List Char) :=
    searchL (fun _ s =>
      (takeDigitsWidths [2, 1] s).bind (fun p =>
        match p.2 with
        | '.' :: r1 =>
            (takeDigitsWidths [2, 1] r1).bind (fun q =>
              match q.2 with
              | '.' :: r2 =>
                  (takeDigitsWidths [4, 3, 2] r2).map (fun w => (p.1, q.1, w.1))
              | _ => none)
        | _ => none)) none t
  match ddmm with
  | some (_, mm, yy) =>
      let yy4 := if yy.length = 2 then '1' :: '9' :: yy else yy
      let yyS : String := ⟨yy4⟩
      let mmS : String := ⟨if mm.length = 1 then '0' :: mm else mm⟩
      some ((if yy4.length < 4 then ⟨List.replicate (4 - yy4.length) '0' ++ yy4⟩ else yyS) ++ "-" ++ mmS)
  | none =>
      -- mm.yyyy
      let mm4 : Option (List Char × List Char) :=
        searchL (fun _ s =>
          (takeDigitsWidths [2, 1] s).bind (fun p =>
            match p.2 with
            | '.' :: r1 => (takeExactDigits 4 r1).map (fun q => (p.1, q.1))
            | _ => none)) none t
      match mm4 with
      | some (mm, yy) =>
          some ((⟨yy⟩ : String) ++ "-" ++ (⟨if mm.length = 1 then '0' :: mm else mm⟩ : String))
      | none =>
          if hasSub "нині".data t || hasSub "тепер".data t ||
             hasSub "present".data t || hasSub "дотепер".data t then
            some "present"
          else none

/-- Models `OPF_TOKENS` (legal-entity abbreviations; two entries contain stray
Latin letters exactly as in the source). -/
def opfTokens : List String :=
  ["тов", "тзов", "ооо", "пп", "дп", "прat", "пат", "ат", "прат", "фоп", "флп", "іп", "упсп", "тоv"]

/-- The strip set `' "\'“”«»()'` of `looks_like_city`. -/
def cityStripSet : List Char := [' ', '"', '\'', '“', '”', '«', '»', '(', ')']

/-- The class `[\"“”«»0-9]`. -/
def quoteDigitClass (c : Char) : Bool :=
  c = '"' || c = '“' || c = '”' || c = '«' || c = '»' || isAsciiDigit c

/-- Models `looks_like_city`. -/
def looks_like_city (token : String) : Bool :=
  let t := pyStrip token
  if t = "" then false
  else
    let low : List Char := stripCharsL cityStripSet (lowerL t.data)
    if opfTokens.contains (⟨low⟩ : String) then false
    else if t.data.any quoteDigitClass then false
    else
      let words := runsOf (fun c => !isPySpace c) low
      if words.length ≥ 3 then false
      else if hasSub "обл".data low || hasSub "район".data low || hasSub "область".data low then
        true
      else words.length ≤ 2

/-- Worker for `split_tail_parentheses`: repeatedly peel a trailing
`\s*\(([^()]*)\)\s*$` group. -/
def splitTailParensAux : Nat → List Char → List String → List Char × List String
  | 0, s, acc => (s, acc)
  | fuel + 1, s, acc =>
      let t := (s.reverse.dropWhile isPySpace).reverse
      match t.reverse with
      | ')' :: rest =>
          let contentRev := rest.takeWhile (fun c => c ≠ '(' && c ≠ ')')
          match rest.drop contentRev.length with
          | '(' :: beforeRev =>
              splitTailParensAux fuel beforeRev.reverse
                ((⟨pyStripL contentRev.reverse⟩ : String) :: acc)
          | _ => (t, acc)
      | _ => (t, acc)

/-- Models `split_tail_parentheses`: base text without the chain of trailing
parenthesised groups, plus the groups' contents in order. -/
def split_tail_parentheses (meta : String) : String × List String :=
  let s := pyStripL meta.data
  let r := splitTailParensAux s.length s []
  (⟨r.1⟩, r.2)

/-- Leftmost `\([^)]*\)\s*(.*)$` match: the text after the first complete
parenthesised group. -/
def firstParenRest (s : List Char) : Option (List Char) :=
  searchL (fun _ u =>
    match u with
    | '(' :: r =>
        let inner := r.takeWhile (fun c => c ≠ ')')
        match r.drop inner.length with
        | ')' :: fin => some (fin.dropWhile isPySpace)
        | _ => none
    | _ => none) none s

/-- Leftmost `\b(по|до)\b\s*(?:\d{2}\.\d{4}|нині|тепер|сьогодні|present)\s*(.*)$`
match: the text after the "to DATE" marker. -/
def poDoRest (s : List Char) : Option (List Char) :=
  searchL (fun prev u =>
    if !boundaryBefore prev then none
    else
      match tryAltsCI [['п', 'о'], ['д', 'о']] u with
      | some (_, r) =>
          if !boundaryAfter r then none
          else
            let r1 := r.dropWhile isPySpace
            let afterDate : Option (List Char) :=
              match mmYYYYAt r1 with
              | some (_, _, rest) => some rest
              | none =>
                  match tryAltsCI ["нині".data, "тепер".data, "сьогодні".data, "present".data] r1 with
                  | some (_, rest) => some rest
                  | none => none
            afterDate.map (fun rest => rest.dropWhile isPySpace)
      | none => none) none s

/-- Result record of `parse_dates_meta_line` (the source returns a tuple
`start, end, months, company, city, industry, duties_hint`). -/
structure DatesMeta where
  start : String
  end_norm : String
  months : Int
  company : Option String
  city : Option String
  industry : Option String
  duties_hint : String
  deriving Repr, DecidableEq

/-- Python `str.split(",")` followed by per-piece strip and empty filter. -/
def splitCommaClean (s : String) : List String :=
  (splitAnyL [','] s.data).filterMap (fun p =>
    let q := pyStripL p
    if q.isEmpty then none else some (⟨q⟩ : String))

/-- Models `", ".join`. -/
def joinCommaSpace (l : List String) : String := String.intercalate ", " l

/-- Models `parse_dates_meta_line`.  `nowYM` is the injected `_now_ym()` value
(always of canonical `YYYY-MM` shape, so `calc_months` cannot raise and
`.getD 0` below is never exercised). -/
def parse_dates_meta_line (nowYM : String) (line : String) : DatesMeta :=
  let t := pyStrip line
  let dates := findAllMMYYYY t.data.length t.data
  let start := match dates.head? with
               | some (mm, yy) => to_yyyy_mm (⟨mm⟩ : String) (⟨yy⟩ : String)
               | none => ""
  let endRaw := match dates.get? 1 with
                | some (mm, yy) => to_yyyy_mm (⟨mm⟩ : String) (⟨yy⟩ : String)
                | none =>
                    if hasWordCI ["нині".data, "тепер".data, "сьогодні".data, "present".data] t.data
                    then "present" else ""
  let end_ym := if endRaw = "present" || endRaw = "now" then nowYM else endRaw
  let months := (calc_months start end_ym).getD 0
  let meta_part : String :=
    match firstParenRest t.data with
    | some rest => (⟨rest⟩ : String)
    | none =>
        match poDoRest t.data with
        | some rest => (⟨rest⟩ : String)
        | none => t
  let bp := split_tail_parentheses meta_part
  let meta_base := bp.1
  let parens := bp.2
  let industry := (parens.getLast?).map pyStrip
  let region := if parens.length ≥ 2 then (parens.head?).map pyStrip else none
  let parts := splitCommaClean meta_base
  let cc : Option String × Option String :=
    match parts with
    | [] => (none, none)
    | _ =>
        if parts.length ≥ 2 && looks_like_city (parts.getLastD "") then
          (some (pyStrip (joinCommaSpace (parts.dropLast))), some (parts.getLastD ""))
        else (some (pyStrip (joinCommaSpace parts)), none)
  let city := match region with
              | some r => if r ≠ "" then some r else cc.2
              | none => cc.2
  { start := start, end_norm := endRaw, months := months,
    company := cc.1, city := city, industry := industry, duties_hint := "" }

/-- Keep-first deduplication of a string list. -/
def dedupL (l : List String) : List String :=
  l.foldl (fun acc x => if acc.contains x then acc else acc ++ [x]) []

/-- Stable insertion of `x` after all elements `y` with `le y x`. -/
def insertLe {α : Type} (le : α → α → Bool) (x : α) : List α → List α
  | [] => [x]
  | y :: ys => if le y x then y :: insertLe le x ys else x :: y :: ys

/-- Stable sort for a total boolean preorder (structurally recursive, so it
reduces; extensionally it is the unique stable sort, i.e. exactly what
Python's stable `list.sort`/`sorted` computes). -/
def stableSortBy {α : Type} (le : α → α → Bool) (l : List α) : List α :=
  l.foldl (fun acc x => insertLe le x acc) []

/-- Models `_split_title_into_role_candidates`: split the title on `-`/`–`/`—`/`/`,
trim, keep pieces of 2..80 characters, dedup case-insensitively. -/
def split_title_into_role_candidates (title : String) : List String :=
  let t := pyStrip title
  if t = "" then []
  else
    let parts := (splitAnyL ['-', '–', '—', '/'] t.data).filterMap (fun p =>
      let q := pyStripL p
      if q.isEmpty then none else some ((⟨q⟩ : String)))
    let parts2 := parts.filter (fun p => 2 ≤ p.data.length && p.data.length ≤ 80)
    (parts2.foldl (fun (acc : List String × List String) p =>
      let k := pyLower p
      if acc.2.contains k then acc else (acc.1 ++ [p], acc.2 ++ [k])) ([], [])).1

/-- The role-separator glyphs `(?:-|–|—|:|\()` of `_find_role_prefix_positions`. -/
def roleGlyphs : List Char := ['-', '–', '—', ':', '(']

/-- Match `(?<!\w)ROLE(?!\w)\s*(-|–|—|:|\()` (ignore-case) at the head of
`u`; returns the matched length. -/
def rolePrefixGlyphAt (prev : Option Char) (role : List Char) (u : List Char) : Option Nat :=
  if !boundaryBefore prev then none
  else
    match matchCI role u with
    | none => none
    | some r =>
        if !boundaryAfter r then none
        else
          let sp := (r.takeWhile isPySpace).length
          match r.drop sp with
          | g :: _ => if roleGlyphs.contains g then some (role.length + sp + 1) else none
          | [] => none

/-- First position (and match length) of the role-marker pattern. -/
def findRolePos (role : List Char) : Nat → Option Char → List Char → Option (Nat × Nat)
  | _, _, [] => none
  | i, prev, c :: cs =>
      match rolePrefixGlyphAt prev role (c :: cs) with
      | some len => some (i, len)
      | none => findRolePos role (i + 1) (some c) cs

/-- Models `_split_duties_by_role_prefixes`: carve the duty text into one segment
per role named in the title, or `none` when that fails. -/
def split_duties_by_role_prefixes (title duties_text : String) : Option (List (String × String)) :=
  let roles := split_title_into_role_candidates title
  if roles.length < 2 then none
  else
    let dtn := normalize_ws duties_text
    if dtn = "" then none
    else
      let dl := dtn.data
      let hitsOpt : Option (List (Nat × Nat × String)) :=
        roles.foldr (fun r acc =>
          acc.bind (fun hs =>
            (findRolePos r.data 0 none dl).map (fun pl => (pl.1, pl.2, r) :: hs)))
          (some [])
      match hitsOpt with
      | none => none
      | some hits0 =>
          let hits := stableSortBy (fun a b => a.1 ≤ b.1) hits0
          -- the two uniqueness checks of the source (vacuously true here:
          -- `roles` is already lower-deduplicated, and `hits` has exactly
          -- one entry per role)
          let rset := dedupL (roles.map pyLower)
          let hroles := hits.map (fun h => pyLower h.2.2)
          if hroles.length ≠ rset.length then none
          else if !(rset.all (hroles.contains ·) && hroles.all (rset.contains ·)) then none
          else
            let n := hits.length
            let segs : List (Option (String × String)) :=
              (List.range n).map (fun idx =>
                match hits.get? idx with
                | none => none
                | some (pos, len, role) =>
                    let segStart := pos + len
                    let segEnd := match hits.get? (idx + 1) with
                                  | some h => h.1
                                  | none => dl.length
                    let seg := pyStripL ((dl.take segEnd).drop segStart)
                    if seg.isEmpty then none
                    else some (pyStrip role, (⟨seg⟩ : String)))
            if segs.any (·.isNone) then none
            else some (segs.filterMap id)

/-- Zero-padded 4-digit year (`f"{y:04d}"`). -/
def pad4 (n : Nat) : String :=
  let d := toString n
  ⟨List.replicate (4 - d.data.length) '0' ++ d.data⟩

/-- Find the `(` used by the lazy `^(?P<title>.+?)\s*\((?P<dates>[^)]{3,50})\)`
match: the first `(` at index ≥ 1 whose distance to the next `)` is 4..51.
Returns (index of `(`, index of `)`). -/
def inlineTitleSplitAux : Nat → List Char → Option (Nat × Nat)
  | _, [] => none
  | j, '(' :: r =>
      if j = 0 then inlineTitleSplitAux (j + 1) r
      else
        let inner := r.takeWhile (fun c => c ≠ ')')
        let dlen := inner.length
        match r.drop dlen with
        | ')' :: _ =>
            if 3 ≤ dlen && dlen ≤ 50 then some (j, j + 1 + dlen)
            else inlineTitleSplitAux (j + 1) r
        | _ => inlineTitleSplitAux (j + 1) r
  | j, _ :: r => inlineTitleSplitAux (j + 1) r

/-- Search `_INLINE_YEARS_RE` =
`(?P<start>\d{4})\s*[–—\-]\s*(?P<end>\d{4}|нині|тепер|present|now)\b`
(ignore-case); returns the start year and `some endYear` / `none` for a
"present" word. -/
def inlineYearsSearch (s : List Char) : Option (Nat × Option Nat) :=
  searchL (fun _ u =>
    (takeExactDigits 4 u).bind (fun p =>
      let r1 := p.2.dropWhile isPySpace
      match r1 with
      | d :: r2 =>
          if d = '–' || d = '—' || d = '-' then
            let r3 := r2.dropWhile isPySpace
            match takeExactDigits 4 r3 with
            | some q =>
                if boundaryAfter q.2 then some (digitsToNat p.1, some (digitsToNat q.1))
                else none
            | none =>
                match tryAltsCI ["нині".data, "тепер".data, "present".data, "now".data] r3 with
                | some (_, rest) =>
                    if boundaryAfter rest then some (digitsToNat p.1, none) else none
                | none => none
          else none
      | [] => none)) none s

/-- The `company`/`industry` split of the inline parser's tail, regex
`^(?P<company>.*?)(?:\s*\((?P<industry>[^)]{2,120})\)\s*)?$`. -/
def inlineCompanyIndustry (rest : List Char) : Option String × Option String :=
  let tryAt (k : Nat) : Option (Option String × Option String) :=
    match (rest.drop k).dropWhile isPySpace with
    | '(' :: r =>
        let inner := r.takeWhile (fun c => c ≠ ')')
        match r.drop inner.length with
        | ')' :: tail =>
            if 2 ≤ inner.length && inner.length ≤ 120 && (tail.dropWhile isPySpace).isEmpty then
              let comp := pyStripL (rest.take k)
              let ind := pyStripL inner
              some ((if comp.isEmpty then none else some (⟨comp⟩ : String)),
                    (if ind.isEmpty then none else some (⟨ind⟩ : String)))
            else none
        | _ => none
    | _ => none
  match firstSome tryAt (List.range rest.length) with
  | some res => res
  | none =>
      let comp := pyStripL rest
      ((if comp.isEmpty then none else some (⟨comp⟩ : String)), none)

/-- Models `parse_inline_title_dates_meta`: parse
`"Title (2020 – 2025) Company (Industry)"`.  Returns
(title, start_ym, end_norm, months, company, industry). -/
def parse_inline_title_dates_meta (nowYM : String) (line : String) :
    Option (String × String × String × Int × Option String × Option String) :=
  let s := pyStrip line
  if s = "" then none
  else
    match inlineTitleSplitAux 0 s.data with
    | none => none
    | some (j, q) =>
        let preTitle := s.data.take j
        let trail := (preTitle.reverse.takeWhile isPySpace).length
        let k := max 1 (j - trail)
        let title := pyStrip (⟨s.data.take k⟩ : String)
        let dates := (s.data.take q).drop (j + 1)
        let restRaw := (s.data.drop (q + 1)).dropWhile isPySpace
        let rest := pyStripL restRaw
        match inlineYearsSearch dates with
        | none => none
        | some (y1, oy2) =>
            let start_ym := pad4 y1 ++ "-01"
            let (end_norm, months) :=
              match oy2 with
              | some y2 =>
                  let e := pad4 y2 ++ "-12"
                  (e, (calc_months start_ym e).getD 0)
              | none => ("present", (calc_months start_ym nowYM).getD 0)
            let ci := inlineCompanyIndustry rest
            some (title, start_ym, end_norm, months, ci.1, ci.2)

/-- Models `duties_from_lines`: bullet lines become one duty each, other lines are
split on `[;,.•]`, header lines are dropped, and the result is
deduplicated on a collapsed lower-case key. -/
def duties_from_lines (lines : List String) : List String × String :=
  let acc := lines.foldl (fun acc ln =>
    let l := pyStrip ln
    if l = "" then acc
    else if is_ignorable_header_line l then acc
    else if is_bullet_line l then
      let d := strip_bullets l
      if d ≠ "" then acc ++ [d] else acc
    else
      acc ++ ((splitAnyL [';', ',', '.', '•'] l.data).filterMap (fun p =>
        let q := pyStripL p
        if q.isEmpty then none
        else if is_ignorable_header_line (⟨q⟩ : String) then none
        else some ((⟨q⟩ : String))))) []
  let out := (acc.foldl (fun (st : List String × List String) x =>
    let k := pyStrip (⟨collapseWs (lowerL x.data)⟩ : String)
    if k = "" || st.2.contains k then st else (st.1 ++ [x], st.2 ++ [k])) ([], [])).1
  (out, pyStrip (joinSpace out))

/-- Tail `\s*[\-–—]\s*(.+)$` of `DATE_PAIR_LINE_RE`; returns group 5. -/
def dateLineTail (r6 : List Char) : Option (List Char) :=
  let r := r6.dropWhile isPySpace
  match r with
  | d :: rest =>
      if d = '-' || d = '–' || d = '—' then
        if rest.isEmpty then none
        else
          let g5 := rest.dropWhile isPySpace
          some (if g5.isEmpty then [' '] else g5)
      else none
  | [] => none

/-- Models `DATE_PAIR_LINE_RE.match` =
`^\s*(з|із|from)\s+(.+?)\s+(по|to)\s+(.+?)\s*[\-–—]\s*(.+)$` (ignore-case),
with the engine's greedy/lazy backtracking orders; returns groups 2, 4, 5. -/
def dateLineMatch (line : List Char) : Option (String × String × String) :=
  let t := line.dropWhile isPySpace
  (tryAltsCI [['з'], ['і', 'з'], "from".data] t).bind (fun pr =>
    firstSome (fun r1 =>
      firstSome (fun g2r2 =>
        firstSome (fun r3 =>
          (tryAltsCI [['п', 'о'], "to".data] r3).bind (fun pr2 =>
            firstSome (fun r5 =>
              firstSome (fun g4r6 =>
                (dateLineTail g4r6.2).map (fun g5 =>
                  ((⟨g2r2.1⟩ : String), (⟨g4r6.1⟩ : String), (⟨g5⟩ : String))))
                (lazyDot1Cands r5))
              (spaces1Cands pr2.2)))
          (spaces1Cands g2r2.2))
        (lazyDot1Cands r1))
      (spaces1Cands pr.2))

/-- The quote class `[«»\"“”]` of the company heuristic. -/
def companyQuote (c : Char) : Bool :=
  c = '«' || c = '»' || c = '"' || c = '“' || c = '”'

/-- Leftmost `((?:ТОВ|ООО|ДП|ПП|АТ|ПрАТ|ФОП)\s+.+)$` (ignore-case) match:
index and captured suffix. -/
def opfSearchAux : Nat → List Char → Option (Nat × List Char)
  | _, [] => none
  | i, c :: cs =>
      match tryAltsCI ["тов".data, "ооо".data, "дп".data, "пп".data,
                       "ат".data, "прат".data, "фоп".data] (c :: cs) with
      | some (_, r) =>
          let sp := (r.takeWhile isPySpace).length
          if sp ≥ 1 && r.length ≥ 2 then some (i, c :: cs)
          else opfSearchAux (i + 1) cs
      | none => opfSearchAux (i + 1) cs

/-- The strip set `" -–—,"` used on the title before an OPF company. -/
def titleTrimSet : List Char := [' ', '-', '–', '—', ',']

/-- Models `parse_one_line_date_entries`: fallback B, one `WorkItem` per matching
`"from DATE to DATE - Title, Company"` line. -/
def parse_one_line_date_entries (lines : List String) : List WorkItem :=
  lines.foldl (fun items ln =>
    match dateLineMatch ln.data with
    | none => items
    | some (g2, g4, g5) =>
        let start := normalize_date_token g2
        let endTok := normalize_date_token g4
        let rest := pyStrip g5
        let candidates := splitCommaClean rest
        let firstGuess : Option String × String :=
          if candidates.length ≥ 2 then
            let last := candidates.getLastD ""
            let low := pyLower last
            if opfTokens.any (fun tok => hasSub tok.data low.data) ||
               last.data.any companyQuote then
              (some last, joinCommaSpace candidates.dropLast)
            else (none, rest)
          else (none, rest)
        let companyTitle : Option String × String :=
          match firstGuess.1 with
          | some c => (some c, firstGuess.2)
          | none =>
              match opfSearchAux 0 rest.data with
              | some (idx, cap) =>
                  (some (pyStrip (⟨cap⟩ : String)),
                   (⟨stripCharsL titleTrimSet (rest.data.take idx)⟩ : String))
              | none => (none, firstGuess.2)
        items ++ [{ title := companyTitle.2, company := companyTitle.1, city := none,
                    industry := none, start := start, «end» := endTok, months := 0,
                    duties := [], duties_text := "", block_text := pyStrip ln }]) []

/-- The duty-collection loop of the primary strategy: gather lines after a
block's meta line until the next `title`+`meta` pair or a stray meta line;
returns the collected lines and the index where the scan stopped. -/
def dutiesScan (lines : List String) : Nat → Nat → List String × Nat
  | 0, j => ([], j)
  | fuel + 1, j =>
      match lines.get? j with
      | none => ([], j)
      | some cur0 =>
          let cur := pyStrip cur0
          let nxt := pyStrip ((lines.get? (j + 1)).getD "")
          if looks_like_title cur && nxt ≠ "" && is_dates_meta_line nxt then ([], j)
          else if is_dates_meta_line cur then ([], j)
          else if is_ignorable_header_line cur then dutiesScan lines fuel (j + 1)
          else
            let r := dutiesScan lines fuel (j + 1)
            (cur :: r.1, r.2)

/-- The primary (title line + dates/meta line) strategy of
`parse_work_experience_section`. -/
def primaryLoop (nowYM : String) (lines : List String) : Nat → Nat → List WorkItem
  | 0, _ => []
  | fuel + 1, i =>
      match lines.get? i with
      | none => []
      | some li =>
          if !looks_like_title li then primaryLoop nowYM lines fuel (i + 1)
          else
            let title := pyStrip li
            match lines.get? (i + 1) with
            | none => primaryLoop nowYM lines fuel (i + 1)
            | some line2 =>
                if !is_dates_meta_line line2 then primaryLoop nowYM lines fuel (i + 1)
                else
                  let dm := parse_dates_meta_line nowYM line2
                  let dj := dutiesScan lines (lines.length + 1) (i + 2)
                  let duties_acc := dj.1
                  let duties_text := pyStrip (joinSpace duties_acc)
                  let newItems : List WorkItem :=
                    match split_duties_by_role_prefixes title duties_text with
                    | some segs =>
                        segs.map (fun rt =>
                          { title := rt.1, company := dm.company, city := dm.city,
                            industry := dm.industry, start := some dm.start,
                            «end» := some dm.end_norm, months := dm.months,
                            duties := split_duties_strict_dot_semi rt.2,
                            duties_text := rt.2, block_text := rt.2 })
                    | none =>
                        [{ title := title, company := dm.company, city := dm.city,
                           industry := dm.industry, start := some dm.start,
                           «end» := some dm.end_norm, months := dm.months,
                           duties := split_duties duties_text, duties_text := duties_text,
                           block_text := pyStrip (String.intercalate "\n"
                             ([title, line2] ++ duties_acc)) }]
                  newItems ++ primaryLoop nowYM lines fuel dj.2

/-- Models `parse_work_experience_section`.  The inline-dates fallback (strategy
2) always evaluates `block_lines = [title, line2] + duties_acc` after its
first successful inline match; on that path neither `line2` nor
`duties_acc` was ever bound (the primary strategy, which binds them,
produced no items — it appends an item whenever it binds them), so the
function raises `UnboundLocalError: line2`. -/
def parse_work_experience_section (nowYM : String) (text : String) :
    Except PyErr (List WorkItem) :=
  let lines := ((pySplitlines text).map pyStrip).filter (fun l => l ≠ "")
  let items := primaryLoop nowYM lines (lines.length + 1) 0
  if !items.isEmpty then .ok items
  else if lines.any (fun ln =>
      !is_ignorable_header_line ln && (parse_inline_title_dates_meta nowYM ln).isSome) then
    .error (.nameError "line2")
  else .ok (parse_one_line_date_entries lines)

-- ---------------------------------------------------------------------
-- Education parser (`regex_extractor.py`)
-- ---------------------------------------------------------------------

/-- Models `DEGREE_MAP`. -/
def DEGREE_MAP : List (String × List String) :=
  [("незакінчена вища", ["незакінчена", "незакінчен", "неповна вища", "incomplete higher"]),
   ("вища", ["вища", "высшее", "higher"]),
   ("середня спеціальна", ["середня спеціальна", "среднее специальное", "vocational", "college"]),
   ("середня", ["середня", "среднее", "secondary"])]

/-- Models `detect_degree`: first map entry one of whose keys occurs in the
lower-cased text. -/
def detect_degree (text : String) : String :=
  let t := lowerL text.data
  match DEGREE_MAP.find? (fun nk => nk.2.any (fun k => hasSub k.data t)) with
  | some nk => nk.1
  | none => ""

/-- Remove every `\(\s*\d+.*?\)` match (fuelled non-overlapping scan). -/
def removeParenDigitFuel : Nat → List Char → List Char
  | 0, s => s
  | _ + 1, [] => []
  | fuel + 1, c :: cs =>
      if c = '(' then
        let r1 := cs.dropWhile isPySpace
        let ds := r1.takeWhile isAsciiDigit
        if ds.isEmpty then c :: removeParenDigitFuel fuel cs
        else
          let r2 := r1.drop ds.length
          let upto := r2.takeWhile (fun d => d ≠ ')')
          match r2.drop upto.length with
          | ')' :: rest => removeParenDigitFuel fuel rest
          | _ => c :: removeParenDigitFuel fuel cs
      else c :: removeParenDigitFuel fuel cs

/-- Models `parse_edu_place_specialty`: place = first blank-separated token of the
segment before the first comma; specialty = what follows the first period
inside that segment. -/
def parse_edu_place_specialty (line : String) : String × String :=
  let s0 := pyStrip line
  if s0 = "" then ("", "")
  else
    let s := pyStripL (removeParenDigitFuel s0.data.length s0.data)
    let head := pyStripL ((splitAnyL [','] s).headD [])
    let place := match (runsOf (fun c => !isPySpace c) head).head? with
                 | some w => pyStrip (⟨w⟩ : String)
                 | none => ""
    let specialty :=
      if head.contains '.' then
        pyStrip (⟨((head.dropWhile (fun c => c ≠ '.')).tail?).getD []⟩ : String)
      else ""
    (place, specialty)

/-- Search `(?:з|с)\s+(\d{4})\s+(?:по|до)\s+(\d{4})` (ignore-case, no word
boundaries); returns the two years and the end index of the match. -/
def eduYrSearchAux : Nat → List Char → Option (Nat × Nat × Nat)
  | _, [] => none
  | i, c :: cs =>
      let attempt : Option (Nat × Nat × Nat) :=
        (tryAltsCI [['з'], ['с']] (c :: cs)).bind (fun pr =>
          let sp1 := (pr.2.takeWhile isPySpace).length
          if sp1 = 0 then none
          else
            (takeExactDigits 4 (pr.2.drop sp1)).bind (fun y1p =>
              let sp2 := (y1p.2.takeWhile isPySpace).length
              if sp2 = 0 then none
              else
                (tryAltsCI [['п', 'о'], ['д', 'о']] (y1p.2.drop sp2)).bind (fun pr2 =>
                  let sp3 := (pr2.2.takeWhile isPySpace).length
                  if sp3 = 0 then none
                  else
                    (takeExactDigits 4 (pr2.2.drop sp3)).map (fun y2p =>
                      (digitsToNat y1p.1, digitsToNat y2p.1,
                       i + 1 + sp1 + 4 + sp2 + 2 + sp3 + 4)))))
      match attempt with
      | some r => some r
      | none => eduYrSearchAux (i + 1) cs

/-- The institution-keyword heuristic of `parse_education_section`. -/
def eduKeywordLine (ln : String) : Bool :=
  let low := lowerL ln.data
  ln.data.length > 6 &&
    (hasSub "університет".data low || hasSub "інститут".data low ||
     hasSub "university".data low || hasSub "academy".data low)

/-- Models `parse_education_section` (its `now` parameter is accepted and unused
in the source; durations always use the parsed years). -/
def parse_education_section (text : String) : List EduItem :=
  if text = "" then []
  else
    let lines := ((pySplitlines text).map pyStrip).filter (fun l => l ≠ "")
    let step : List EduItem × Option EduItem → String → List EduItem × Option EduItem :=
      fun st ln =>
        match eduYrSearchAux 0 ln.data with
        | some (y1, y2, endIdx) =>
            let cur0 := st.2.getD {}
            let ps := parse_edu_place_specialty ln
            let tail := stripCharsL [' ', ',', '—', '-'] (ln.data.drop endIdx)
            let extra' := if tail.isEmpty then cur0.extra
                          else pyStrip (cur0.extra ++ " " ++ (⟨tail⟩ : String))
            (st.1, some { cur0 with
                start := some (pad4 y1 ++ "-01"), «end» := some (pad4 y2 ++ "-12"),
                months := some (months_between ⟨(y1 : Int), 1, 1⟩ ⟨(y2 : Int), 12, 1⟩),
                degree := detect_degree ln,
                place := ps.1, specialty := ps.2, extra := extra' })
        | none =>
            if eduKeywordLine ln then
              (st.1 ++ (match st.2 with | some c => [c] | none => []), some { place := ln })
            else
              match st.2 with
              | some c =>
                  if c.specialty = "" then (st.1, some { c with specialty := ln })
                  else (st.1, some { c with extra := pyStrip (c.extra ++ " " ++ ln) })
              | none => st
    let fin := lines.foldl step ([], none)
    fin.1 ++ (match fin.2 with | some c => [c] | none => [])

-- ---------------------------------------------------------------------
-- Role aggregator (`processor.py`)
-- ---------------------------------------------------------------------

/-- A cluster of `aggregate_months_by_title` (the Python `titles` set is
modelled as a first-insertion list; only its extension matters, and the
final output sorts it). -/
structure Cluster where
  rep_raw : String
  rep_norm : String
  months : Int
  titles : List String
  deriving Repr, DecidableEq

/-- Models `set.add`. -/
def addTitle (ts : List String) (t : String) : List String :=
  if ts.contains t then ts else ts ++ [t]

/-- One item step of the lightweight (no-matcher) mode: `for`/`else`
bucketing on the normalized key. -/
def stepNone (raw title_n : String) (m : Int) : List Cluster → List Cluster
  | [] => [⟨raw, title_n, m, [raw]⟩]
  | c :: cs =>
      if c.rep_norm = title_n then
        { c with months := c.months + m, titles := addTitle c.titles raw } :: cs
      else c :: stepNone raw title_n m cs

/-- The best-cluster scan of the semantic mode: strictly greater
similarity wins, so the first cluster attaining the maximum is kept. -/
def scanBest (f : String → String → ℚ) (raw : String) :
    List Cluster → Nat → Option Nat → ℚ → Option Nat × ℚ
  | [], _, bi, bs => (bi, bs)
  | c :: cs, i, bi, bs =>
      let s := f raw c.rep_raw
      if bs < s then scanBest f raw cs (i + 1) (some i) s
      else scanBest f raw cs (i + 1) bi bs

/-- Fold an item into a cluster: add months, record the raw title, and
replace the representative by a strictly shorter raw title. -/
def joinCluster (c : Cluster) (raw : String) (m : Int) : Cluster :=
  let c1 := { c with months := c.months + m, titles := addTitle c.titles raw }
  if raw.data.length < c1.rep_raw.data.length then
    { c1 with
        rep_raw := raw
        rep_norm := (if norm_title raw ≠ "" then norm_title raw else c1.rep_norm) }
  else c1

/-- Update the cluster at index `j` (the Python `clusters[best_idx]`
mutation). -/
def updateClusterAt (raw : String) (m : Int) : List Cluster → Nat → List Cluster
  | [], _ => []
  | c :: cs, 0 => joinCluster c raw m :: cs
  | c :: cs, j + 1 => c :: updateClusterAt raw m cs j

/-- One item step of the semantic mode. -/
def stepSem (f : String → String → ℚ) (thr : ℚ) (raw title_n : String) (m : Int)
    (cs : List Cluster) : List Cluster :=
  let b := scanBest f raw cs 0 none 0
  match b.1 with
  | some j => if thr ≤ b.2 then updateClusterAt raw m cs j
              else cs ++ [⟨raw, title_n, m, [raw]⟩]
  | none => cs ++ [⟨raw, title_n, m, [raw]⟩]

/-- One iteration of the main loop of `aggregate_months_by_title`. -/
def aggStep (matcher : Option (String → String → ℚ)) (thr : ℚ)
    (cs : List Cluster) (it : WorkItem) : List Cluster :=
  let raw := pyStrip it.title
  if raw = "" || it.months ≤ 0 then cs
  else
    let tn := norm_title raw
    if tn = "" then cs
    else
      match matcher with
      | none => stepNone raw tn it.months cs
      | some f => stepSem f thr raw tn it.months cs

/-- One output row of `aggregate_months_by_title`. -/
structure PosAgg where
  position : String
  display_position : String
  months : Int
  years : Option ℚ
  titles : List String
  deriving Repr, DecidableEq

/-- Python `sorted` on strings (code-point lexicographic). -/
def sortStrings (l : List String) : List String :=
  stableSortBy (fun a b => a ≤ b) l

/-- The finalisation of `aggregate_months_by_title`: project clusters and
sort by descending months (stable, as `list.sort(reverse=True)` is). -/
def finalizeClusters (cs : List Cluster) : List PosAgg :=
  let out := cs.map (fun c =>
    { position := c.rep_norm, display_position := c.rep_raw, months := c.months,
      years := if c.months ≠ 0 then fmt_years_1dp c.months else none,
      titles := (sortStrings c.titles).take 20 })
  stableSortBy (fun a b => b.months ≤ a.months) out

/-- Models `aggregate_months_by_title`. -/
def aggregate_months_by_title (work_items : List WorkItem)
    (matcher : Option (String → String → ℚ) := none) (thr : ℚ := 82 / 100) : List PosAgg :=
  finalizeClusters (work_items.foldl (aggStep matcher thr) [])

-- ---------------------------------------------------------------------
-- Skill-months attribution (`processor.py`)
-- ---------------------------------------------------------------------

/-- Models `defaultdict(int)` update, insertion-ordered. -/
def upsertAdd (m : List (String × Int)) (k : String) (v : Int) : List (String × Int) :=
  if m.any (fun kv => kv.1 = k) then
    m.map (fun kv => if kv.1 = k then (kv.1, kv.2 + v) else kv)
  else m ++ [(k, v)]

/-- Models `build_skill_months_from_work_items`.  (The source wraps each matcher
call in `try/except: continue`; the modelled matcher is a total function,
so the handler is dead.) -/
def build_skill_months_from_work_items (work_items : List WorkItem)
    (known_raw_skills : List String) (matcher : Option (String → String → ℚ))
    (thr : ℚ := 78 / 100) : List (String × Int) :=
  let known := known_raw_skills.filterMap (fun s =>
    let ns := norm_skill s
    if ns ≠ "" then some (ns, s) else none)
  if known.isEmpty then []
  else
    work_items.foldl (fun sm wi =>
      if wi.months ≤ 0 then sm
      else
        wi.duties.foldl (fun sm d0 =>
          let d := pyStrip d0
          if d = "" then sm
          else
            let nd := norm_skill d
            let exact : Option String :=
              if nd ≠ "" then ((known.find? (fun p => p.1 = nd)).map (fun p => p.1)) else none
            match exact with
            | some ns => upsertAdd sm ns wi.months
            | none =>
                match matcher with
                | none => sm
                | some f =>
                    let best := known.foldl (fun (acc : Option String × ℚ) p =>
                      let s := f d p.2
                      if acc.2 < s then (some p.1, s) else acc) (none, 0)
                    match best.1 with
                    | some ns => if thr ≤ best.2 then upsertAdd sm ns wi.months else sm
                    | none => sm) sm) []

-- ---------------------------------------------------------------------
-- Payload extraction (`regex_resume.py`) and orchestrator (`processor.py`)
-- ---------------------------------------------------------------------

/-- The `parsed` section mapping of an input payload.  String-typed
sections; the source also accepts lists for `skills`/`languages`, which
`_split_csv_like` handles identically to the joined string. -/
structure ParsedSection where
  position : Option String := none
  work_experience : Option String := none
  education : Option String := none
  skills : Option String := none
  languages : Option String := none
  deriving Repr, DecidableEq

/-- An input payload.  `cleaned_text` only drives a log warning in the
source and has no behavioural effect. -/
structure Payload where
  source_url : Option String := none
  parsed : Option ParsedSection := none
  cleaned_text : Option String := none
  deriving Repr, DecidableEq

/-- Models `_split_csv_like` (its separator class is `[,;â€¢•]+`, with the
three mojibake characters exactly as in the source). -/
def split_csv_like (v : Option String) : List String :=
  match v with
  | none => []
  | some s =>
      (splitAnyL [',', ';', 'â', '€', '¢', '•'] s.data).filterMap (fun p =>
        let q := pyStripL p
        if q.isEmpty then none else some ((⟨q⟩ : String)))

/-- What `process_payload` consumes of `RegexExtractResult` (`salary` and
the structured `languages` list are never read by the orchestrator and are
omitted). -/
structure RegexExtractResult where
  position : Option String := none
  skills : List String := []
  work_items : List WorkItem := []
  edu_items : List EduItem := []
  deriving Repr, DecidableEq

/-- Models `regex_extract_from_payload`.  The languages loop REBINDS the local
`parsed` (`parsed = parse_language_item(x)`), so when at least one
language item is present, every later `parsed.get(...)`/`isinstance`
access sees the last language dict (or `None`) instead of the payload's
section mapping, and position/work/education/skills all read as empty. -/
def regex_extract_from_payload (nowYM : String) (payload : Payload) :
    Except PyErr RegexExtractResult := do
  let parsed0 := payload.parsed.getD {}
  let languages := dedupL (split_csv_like parsed0.languages)
  let clobbered := !languages.isEmpty
  let work_text := if clobbered then "" else parsed0.work_experience.getD ""
  let edu_text := if clobbered then "" else parsed0.education.getD ""
  let work_items ← parse_work_experience_section nowYM work_text
  let edu_items := parse_education_section edu_text
  pure { position := if clobbered then none else parsed0.position,
         skills := if clobbered then [] else split_csv_like parsed0.skills,
         work_items := work_items, edu_items := edu_items }

/-- Leftmost `(Должность|Посада|Position)\s*[:\-]\s*([^\n]+)` (ignore-case)
match; returns the raw capture (a blanks-only capture arises when nothing
but blanks follows the colon, and strips to `""` downstream). -/
def positionSearch (s : List Char) : Option String :=
  searchL (fun _ u =>
    (tryAltsCI ["должность".data, "посада".data, "position".data] u).bind (fun pr =>
      let r1 := pr.2.dropWhile isPySpace
      match r1 with
      | c :: r2 =>
          if c = ':' || c = '-' then
            let rest := r2.dropWhile isPySpace
            match rest.takeWhile (fun d => d ≠ '\n') with
            | [] =>
                if r2.any (fun d => isPySpace d && d ≠ '\n') then some "" else none
            | cap => some ((⟨cap⟩ : String))
          else none
      | [] => none)) none s

/-- Models `fill_missing_work_titles`: back-fill blank titles from the headline
position (or a "Position: ..." marker inside the work text). -/
def fill_missing_work_titles (work_items : List WorkItem) (work_text : String)
    (position : Option String) : List WorkItem :=
  let pos0 := pyStrip (position.getD "")
  let pos := if pos0 ≠ "" then pos0
             else match positionSearch work_text.data with
                  | some g => pyStrip g
                  | none => ""
  work_items.map (fun it =>
    if pyStrip it.title = "" && pos ≠ "" then { it with title := pos } else it)

/-- The `ProcessedResume` output record (`types.py`). -/
structure ProcessedResume where
  driving_categories : List String := []
  normalized_skills : List String := []
  skill_months : Option (List (String × Int)) := none
  work_experience_items : Option (List WorkItem) := none
  education_items : Option (List EduItem) := none
  total_work_years : Option ℚ := none
  total_edu_years : Option ℚ := none
  months_by_position : Option (List PosAgg) := none
  extractor_warnings : List String := []
  deriving Repr, DecidableEq

/-- Models `UniversalResumeProcessor.process_payload`.

`setOrder` injects the unspecified (hash-randomised) iteration order of
the CPython `set` in `driving_categories = list(set(driving_categories))`:
the runtime guarantees only that the result is SOME enumeration of the
deduplicated elements.

The `except Exception` handler evaluates `processed.extractor_warnings`,
but no variable `processed` exists in the function (the record is bound as
`out`), so the handler itself raises `NameError: processed` and nothing is
returned. -/
def process_payload (setOrder : List String → List String) (nowYM : String)
    (matcher : Option (String → String → ℚ)) (payload : Payload) :
    Except PyErr ProcessedResume :=
  let body : Except PyErr ProcessedResume := do
    let rx ← regex_extract_from_payload nowYM payload
    let parsed := payload.parsed.getD {}
    let position := parsed.position
    let work_text := parsed.work_experience.getD ""
    let work_items := fill_missing_work_titles rx.work_items work_text position
    let total_work_months := (work_items.map (fun it => it.months)).sum
    let total_work_years :=
      if total_work_months > 0 then fmt_years_1dp total_work_months else none
    let months_by_position := aggregate_months_by_title work_items matcher
    let total_edu_months := (rx.edu_items.map (fun e => e.months.getD 0)).sum
    let total_edu_years :=
      if total_edu_months > 0 then fmt_years_1dp total_edu_months else none
    let normalized_skills := rx.skills.foldl (fun acc s =>
      let ns := norm_skill s
      if ns ≠ "" && !acc.contains ns then acc ++ [ns] else acc) []
    let skill_months := build_skill_months_from_work_items work_items rx.skills matcher
    let dc1 := (extract_driving_categories (joinCommaSpace rx.skills)).foldl
      (fun acc c => if acc.contains c then acc else acc ++ [c]) []
    let dc2 := (driving_cats_from_skill_months skill_months).foldl
      (fun acc c => if acc.contains c then acc else acc ++ [c]) dc1
    let driving_categories := setOrder (dedupL dc2)
    pure { driving_categories := driving_categories,
           normalized_skills := normalized_skills,
           skill_months := if skill_months.isEmpty then none else some skill_months,
           work_experience_items := if work_items.isEmpty then none else some work_items,
           education_items := if rx.edu_items.isEmpty then none else some rx.edu_items,
           total_work_years := total_work_years,
           total_edu_years := total_edu_years,
           months_by_position :=
             if months_by_position.isEmpty then none else some months_by_position,
           extractor_warnings := [] }
  match body with
  | .ok r => .ok r
  | .error _ => .error (.nameError "processed")

-- ---------------------------------------------------------------------
-- Concrete inputs and auxiliary definitions used by the claim theorems
-- ---------------------------------------------------------------------

/-- The stub similarity oracle of the spec: `1.0` on identical strings,
`0.0` otherwise. -/
def stubSim : String → String → ℚ := fun a b => if a = b then 1 else 0

/-- An item survives `aggregate_months_by_title`'s skip conditions:
non-blank title, positive months, non-empty normalized key. -/
def qualifiesAgg (it : WorkItem) : Bool :=
  pyStrip it.title ≠ "" && 0 < it.months && norm_title (pyStrip it.title) ≠ ""

/-- Index of the first cluster whose representative equals `raw`. -/
def findRawIdx (raw : String) : List Cluster → Option Nat
  | [] => none
  | c :: cs => if c.rep_raw = raw then some 0 else (findRawIdx raw cs).map (fun j => j + 1)

/-- The C3 scenario work-experience text. -/
def c3WorkText : String :=
  "Courier/Driver (2020 – 2025) Acme LLC (Logistics)\nDelivered packages. Drove category B vehicle."

/-- Its first line. -/
def c3Line : String := "Courier/Driver (2020 – 2025) Acme LLC (Logistics)"

/-- Its duty line. -/
def c3DutyLine : String := "Delivered packages. Drove category B vehicle."

/-- The C7 scenario education text. -/
def c7EduText : String := "Kyiv National University\nз 2015 по 2019, Computer Science"

/-- A well-formed payload whose work-experience text reaches the
inline-dates fallback (any inline-shaped line does). -/
def c1Payload : Payload :=
  { parsed := some { work_experience := some "X (2001 – 2002) Co" } }

/-- A payload with driving categories in the skills and no identifier. -/
def c4Payload : Payload :=
  { parsed := some { skills := some "кат. A; кат. B; кат. C" } }

/-- C5 counterexample items: two titles equal up to normalisation. -/
def c5Items : List WorkItem :=
  [{ title := "Driver", months := 5 }, { title := "driver", months := 7 }]

/-- The C8 counterexample text. -/
def c8Text : String := "a, b. one two three four five six seven eight nine ten"

/-- The stripped raw titles of an item list (what the aggregator buckets). -/
def rawsOf (items : List WorkItem) : List String :=
  items.map (fun it => pyStrip it.title)

/-- Invariant of the aggregation loop: every cluster's normalized key is
the normalization of its representative, and every representative is one
of the input titles. -/
def clusterInv (items : List WorkItem) (cs : List Cluster) : Prop :=
  ∀ c ∈ cs, c.rep_norm = norm_title c.rep_raw ∧ c.rep_raw ∈ rawsOf items

/-- Titles of the item list are separated by normalization: two titles with
the same normalized key are already the same string. -/
def normInjOn (items : List WorkItem) : Prop :=
  ∀ s1 ∈ rawsOf items, ∀ s2 ∈ rawsOf items, norm_title s1 = norm_title s2 → s1 = s2

/-- C5 witness items: distinct roles, one repeated verbatim. -/
def c5WitnessItems : List WorkItem :=
  [{ title := "Driver", months := 5 }, { title := "Courier", months := 7 },
   { title := "Driver", months := 4 }]

-- ---------------------------------------------------------------------
-- Theorems
-- ---------------------------------------------------------------------

/-- Claim C1: (code bug).  A well-formed payload whose work-experience section
matches the inline-dates fallback makes `regex_extract_from_payload` raise
`UnboundLocalError: line2` inside `process_payload`'s `try`; the `except`
handler then evaluates the undefined name `processed`, so the call raises
`NameError: processed` instead of recording the `processing_failed` warning
and returning a best-effort record. -/
theorem claim1_handler_crashes_instead_of_warning
    (setOrder : List String → List String) (nowYM : String)
    (matcher : Option (String → String → ℚ)) :
    process_payload setOrder nowYM matcher c1Payload =
      Except.error (PyErr.nameError "processed") := rfl

/-- Claim C2 counterexample: .  A payload with no `source_url` is not rejected:
`process_payload` completes normally and returns a (here: empty) record,
contradicting "reports a hard failure to the caller and returns no partial
record". -/
theorem claim2_counterexample_no_url_still_returns_record :
    process_payload id "2026-10" none { source_url := none } =
      Except.ok ({} : ProcessedResume) := by rfl

/-- Claim C2 amended: .  `process_payload` performs no validation of
`source_url` at all: the identifier is only logged, the result does not
depend on it, and a payload lacking it is processed normally. -/
theorem claim2_amended_url_never_validated :
    (∀ (setOrder : List String → List String) (nowYM : String)
       (matcher : Option (String → String → ℚ)) (p : Payload) (u : Option String),
        process_payload setOrder nowYM matcher { p with source_url := u } =
          process_payload setOrder nowYM matcher p) ∧
    process_payload id "2026-10" none { source_url := none } =
      Except.ok ({} : ProcessedResume) :=
  ⟨fun _ _ _ _ _ => rfl, by rfl⟩

/-- Claim C3 counterexample: .  On the scenario text the pipeline yields no
employment entries at all: `parse_work_experience_section` raises
`UnboundLocalError: line2` in the inline-dates fallback, so neither one
nor two entries (let alone a 61-month duration) are produced. -/
theorem claim3_counterexample_parser_raises :
    parse_work_experience_section "2026-10" c3WorkText =
      Except.error (PyErr.nameError "line2") := rfl

/-- Claim C3 amended: .  The primary strategy does not match the scenario text,
and the inline-dates fallback parses its first line as title
"Courier/Driver", range 2020-01..2025-12 — 72 months inclusive, not 61 —
company "Acme LLC", industry "Logistics", but then raises
`UnboundLocalError: line2` while assembling the block text, so the parse
crashes and no employment entry is produced; the driving-category
extractor does recognise `["B"]` in the duty line. -/
theorem claim3_amended_crash_and_72_months :
    parse_work_experience_section "2026-10" c3WorkText =
      Except.error (PyErr.nameError "line2") ∧
    parse_inline_title_dates_meta "2026-10" c3Line =
      some ("Courier/Driver", "2020-01", "2025-12", 72, some "Acme LLC", some "Logistics") ∧
    calc_months "2020-01" "2025-12" = some 72 ∧
    extract_driving_categories c3DutyLine = ["B"] :=
  ⟨rfl, by rfl, by rfl, by rfl⟩

/-- Claim C7 counterexample: .  The scenario entry's institution is not
"Kyiv National University" and its duration is not 49 months. -/
theorem claim7_counterexample_place_and_months :
    (parse_education_section c7EduText).map (fun e => (e.place, e.months)) ≠
      [("Kyiv National University", some 49)] := by decide

/-- Claim C7 amended: .  `parse_education_section` returns exactly one entry
for the scenario text, but its institution field is `"з"` (the
place/specialty extraction takes the first blank-separated token of the
date line, clobbering the university line recorded before), the degree is
unresolved (`""`), the duration is 60 months (2015-01..2019-12 inclusive),
and "Computer Science" lands in the free-text remainder. -/
theorem claim7_amended_one_entry_actual_fields :
    parse_education_section c7EduText =
      [{ place := "з", degree := "", specialty := "", start := some "2015-01",
         «end» := some "2019-12", months := some 60, extra := "Computer Science" }] := by rfl

/-- Claim C4: (code bug).  The true part: `extract_driving_categories` always
returns a duplicate-free sublist of the fixed canonical order
`[A,B,BE,C,CE,D,DE]` (hence a subset in that order, independent of input
order/multiplicity).  The bug: `process_payload` then re-enumerates the
collected list through a CPython `set` (`list(set(...))`), whose iteration
order is unspecified — under two legitimate set-enumeration orders the
same payload yields `["A","B","C"]` and `["C","B","A"]`, so the processed
output's order is not the fixed canonical one. -/
theorem claim4_canonical_sublist_but_set_scrambles :
    (∀ text : String, List.Sublist (extract_driving_categories text) drivingOrder) ∧
    (∀ text : String, (extract_driving_categories text).Nodup) ∧
    (process_payload id "2026-10" none c4Payload).toOption.map
      (fun r => r.driving_categories) = some ["A", "B", "C"] ∧
    (process_payload (fun l => l.reverse) "2026-10" none c4Payload).toOption.map
      (fun r => r.driving_categories) = some ["C", "B", "A"] := by
  refine ⟨?_, ?_, by rfl, by rfl⟩
  · intro text
    exact List.filter_sublist drivingOrder
  · intro text
    exact (List.filter_sublist drivingOrder).nodup (by decide)

/-- Claim C6: (confirmed).  `calc_months` returns 0 on an empty (unresolved)
period, the inclusive count `(end_index - start_index) + 1` with
`index = year*12 + month` when both resolve and the end does not precede
the start, 0 when the end precedes the start, and is never negative. -/
theorem claim6_inclusive_months_never_negative :
    (∀ e : String, calc_months "" e = some 0) ∧
    (∀ s : String, calc_months s "" = some 0) ∧
    (∀ (s e : String) (a b : Int), s ≠ "" → e ≠ "" →
        ym_to_int s = some a → ym_to_int e = some b →
        calc_months s e = some (if b < a then 0 else (b - a) + 1)) ∧
    (∀ (s e : String) (v : Int), calc_months s e = some v → 0 ≤ v) := by
  refine ⟨?_, ?_, ?_, ?_⟩
  · intro e; simp [calc_months]
  · intro s; simp [calc_months]
  · intro s e a b hs he ha hb
    simp [calc_months, hs, he, ha, hb]
  · intro s e v h
    unfold calc_months at h
    by_cases hse : (s = "" || e = "") = true
    · rw [if_pos hse] at h
      simp at h
      omega
    · rw [if_neg hse] at h
      cases hys : ym_to_int s with
      | none => rw [hys] at h; cases hye : ym_to_int e with
        | none => rw [hye] at h; exact absurd h (by simp)
        | some b => rw [hye] at h; exact absurd h (by simp)
      | some a =>
          rw [hys] at h
          cases hye : ym_to_int e with
          | none => rw [hye] at h; exact absurd h (by simp)
          | some b =>
              rw [hye] at h
              simp at h
              by_cases hlt : b < a
              · rw [if_pos hlt] at h; omega
              · rw [if_neg hlt] at h; omega

/-- Witness for C6 at the source docstring's own example
(`2018-03..2019-06 => 16`). -/
theorem claim6_witness : calc_months "2018-03" "2019-06" = some 16 := by
  have h := claim6_inclusive_months_never_negative.2.2.1 "2018-03" "2019-06"
    (2018 * 12 + 3) (2019 * 12 + 6) (by decide) (by decide) (by rfl) (by rfl)
  exact h.trans (by norm_num)

/-- Claim C10: (confirmed).  Whenever `process_payload` completes without an
internal exception, the returned record's `extractor_warnings` is the
empty list: the success path always builds the record with
`extractor_warnings=[]`, no matter how much failed to resolve. -/
theorem claim10_success_has_empty_warnings
    (setOrder : List String → List String) (nowYM : String)
    (matcher : Option (String → String → ℚ)) (p : Payload) (r : ProcessedResume)
    (h : process_payload setOrder nowYM matcher p = Except.ok r) :
    r.extractor_warnings = [] := by
  unfold process_payload at h
  cases hrx : regex_extract_from_payload nowYM p with
  | error e =>
      rw [hrx] at h
      exact absurd h (by simp [Bind.bind, Except.bind])
  | ok rx =>
      rw [hrx] at h
      simp only [Bind.bind, Except.bind, pure, Except.pure] at h
      cases h
      rfl

/-- Witness for C10: the empty payload processes successfully and its
record indeed carries no warnings. -/
theorem claim10_witness : (({} : ProcessedResume)).extractor_warnings = [] :=
  claim10_success_has_empty_warnings id "2026-10" none { source_url := none } {} (by rfl)

theorem insertLe_perm {α : Type} (le : α → α → Bool) (x : α) (l : List α) :
    List.Perm (insertLe le x l) (x :: l) := by
  induction l with
  | nil => exact List.Perm.refl _
  | cons y ys ih =>
      unfold insertLe
      by_cases h : le y x
      · rw [if_pos h]
        exact (ih.cons y).trans (List.Perm.swap x y ys)
      · rw [if_neg h]

theorem stableSortBy_perm_aux {α : Type} (le : α → α → Bool) (l : List α) :
    ∀ acc : List α,
      List.Perm (l.foldl (fun acc x => insertLe le x acc) acc) (acc ++ l) := by
  induction l with
  | nil => intro acc; simp
  | cons x xs ih =>
      intro acc
      simp only [List.foldl_cons]
      refine (ih (insertLe le x acc)).trans ?_
      refine (List.Perm.append_right xs (insertLe_perm le x acc)).trans ?_
      exact List.perm_middle.symm

theorem stableSortBy_perm {α : Type} (le : α → α → Bool) (l : List α) :
    List.Perm (stableSortBy le l) l := by
  simpa [stableSortBy] using stableSortBy_perm_aux le l []

theorem stableSortBy_map_sum {α : Type} (le : α → α → Bool) (f : α → Int)
    (l : List α) : ((stableSortBy le l).map f).sum = (l.map f).sum :=
  ((stableSortBy_perm le l).map f).sum_eq

theorem finalizeClusters_months_sum (cs : List Cluster) :
    ((finalizeClusters cs).map (fun p => p.months)).sum =
      (cs.map (fun c => c.months)).sum := by
  simp only [finalizeClusters]
  rw [stableSortBy_map_sum, List.map_map]
  rfl

theorem joinCluster_months (c : Cluster) (raw : String) (m : Int) :
    (joinCluster c raw m).months = c.months + m := by
  unfold joinCluster
  dsimp only
  split <;> rfl

theorem stepNone_months_sum (raw tn : String) (m : Int) (cs : List Cluster) :
    ((stepNone raw tn m cs).map (fun c => c.months)).sum =
      (cs.map (fun c => c.months)).sum + m := by
  induction cs with
  | nil => simp [stepNone]
  | cons c cs ih =>
      unfold stepNone
      by_cases h : c.rep_norm = tn
      · rw [if_pos h]
        simp only [List.map_cons, List.sum_cons]
        omega
      · rw [if_neg h]
        simp only [List.map_cons, List.sum_cons, ih]
        omega

theorem scanBest_idx_bound (f : String → String → ℚ) (raw : String)
    (cs : List Cluster) :
    ∀ (i : Nat) (bi : Option Nat) (bs : ℚ),
      (∀ k, bi = some k → k < i) →
      ∀ j, (scanBest f raw cs i bi bs).1 = some j → j < i + cs.length := by
  induction cs with
  | nil =>
      intro i bi bs hbi j hj
      simp only [scanBest] at hj
      simpa using hbi j hj
  | cons c cs ih =>
      intro i bi bs hbi j hj
      unfold scanBest at hj
      simp only [List.length_cons]
      by_cases h : bs < f raw c.rep_raw
      · rw [if_pos h] at hj
        have := ih (i + 1) (some i) (f raw c.rep_raw)
          (fun k hk => by cases hk; omega) j hj
        omega
      · rw [if_neg h] at hj
        have := ih (i + 1) bi bs (fun k hk => Nat.lt_succ_of_lt (hbi k hk)) j hj
        omega

theorem updateClusterAt_months_sum (raw : String) (m : Int) (cs : List Cluster) :
    ∀ j, j < cs.length →
      ((updateClusterAt raw m cs j).map (fun c => c.months)).sum =
        (cs.map (fun c => c.months)).sum + m := by
  induction cs with
  | nil => intro j hj; exact absurd hj (by simp)
  | cons c cs ih =>
      intro j hj
      cases j with
      | zero =>
          simp only [updateClusterAt, List.map_cons, List.sum_cons, joinCluster_months]
          omega
      | succ j =>
          simp only [updateClusterAt, List.map_cons, List.sum_cons]
          rw [ih j (by simpa using Nat.lt_of_succ_lt_succ hj)]
          omega

theorem stepSem_months_sum (f : String → String → ℚ) (thr : ℚ) (raw tn : String)
    (m : Int) (cs : List Cluster) :
    ((stepSem f thr raw tn m cs).map (fun c => c.months)).sum =
      (cs.map (fun c => c.months)).sum + m := by
  simp only [stepSem]
  cases hb : (scanBest f raw cs 0 none 0).1 with
  | none => simp
  | some j =>
      have hj : j < cs.length := by
        have := scanBest_idx_bound f raw cs 0 none 0 (fun k hk => by cases hk) j hb
        simpa using this
      dsimp only
      by_cases ht : thr ≤ (scanBest f raw cs 0 none 0).2
      · rw [if_pos ht]
        exact updateClusterAt_months_sum raw m cs j hj
      · rw [if_neg ht]
        simp

theorem qualifiesAgg_iff (it : WorkItem) :
    qualifiesAgg it = true ↔
      pyStrip it.title ≠ "" ∧ 0 < it.months ∧ norm_title (pyStrip it.title) ≠ "" := by
  simp [qualifiesAgg, and_assoc]

theorem aggStep_eq_of_not_qual (matcher : Option (String → String → ℚ)) (thr : ℚ)
    (cs : List Cluster) (it : WorkItem) (hq : qualifiesAgg it = false) :
    aggStep matcher thr cs it = cs := by
  unfold aggStep
  by_cases h1 : pyStrip it.title = ""
  · rw [if_pos (by simp [h1])]
  · by_cases h2 : it.months ≤ 0
    · rw [if_pos (by simp [h2])]
    · by_cases h3 : norm_title (pyStrip it.title) = ""
      · rw [if_neg (by simp [h1, h2]), if_pos h3]
      · exact absurd ((qualifiesAgg_iff it).2 ⟨h1, by omega, h3⟩) (by simp [hq])

theorem aggStep_months_sum_qual (matcher : Option (String → String → ℚ)) (thr : ℚ)
    (cs : List Cluster) (it : WorkItem) (hq : qualifiesAgg it = true) :
    ((aggStep matcher thr cs it).map (fun c => c.months)).sum =
      (cs.map (fun c => c.months)).sum + it.months := by
  obtain ⟨h1, h2, h3⟩ := (qualifiesAgg_iff it).1 hq
  unfold aggStep
  rw [if_neg (by simp [h1]; omega), if_neg h3]
  cases matcher with
  | none => exact stepNone_months_sum _ _ it.months cs
  | some f => exact stepSem_months_sum f thr _ _ it.months cs

theorem foldl_aggStep_months_sum (matcher : Option (String → String → ℚ)) (thr : ℚ)
    (l : List WorkItem) :
    ∀ cs : List Cluster,
      ((l.foldl (aggStep matcher thr) cs).map (fun c => c.months)).sum =
        (cs.map (fun c => c.months)).sum +
          ((l.filter qualifiesAgg).map (fun it => it.months)).sum := by
  induction l with
  | nil => intro cs; simp
  | cons it l ih =>
      intro cs
      simp only [List.foldl_cons]
      rw [ih (aggStep matcher thr cs it)]
      cases hq : qualifiesAgg it with
      | true =>
          rw [aggStep_months_sum_qual matcher thr cs it hq]
          simp [List.filter_cons, hq]
          omega
      | false =>
          rw [aggStep_eq_of_not_qual matcher thr cs it hq]
          simp [List.filter_cons, hq]

/-- Claim C9: (confirmed).  Month conservation: in both modes (no oracle, or
any total oracle — a fortiori any oracle valued in `[0,1]`), the months of
the clusters returned by `aggregate_months_by_title` sum to exactly the
months of those input items whose title normalizes to a non-empty key and
whose month count is positive; i.e. every qualifying item is counted in
exactly one cluster. -/
theorem claim9_months_conserved (items : List WorkItem)
    (matcher : Option (String → String → ℚ)) :
    ((aggregate_months_by_title items matcher).map (fun p => p.months)).sum =
      ((items.filter qualifiesAgg).map (fun it => it.months)).sum := by
  unfold aggregate_months_by_title
  rw [finalizeClusters_months_sum]
  simpa using foldl_aggStep_months_sum matcher (82 / 100) items []

theorem stubSim_le_one (a b : String) : stubSim a b ≤ 1 := by
  unfold stubSim
  split <;> norm_num

theorem scanBest_stub_sat (raw : String) (cs : List Cluster) :
    ∀ (i : Nat) (bi : Option Nat), scanBest stubSim raw cs i bi 1 = (bi, 1) := by
  induction cs with
  | nil => intro i bi; rfl
  | cons c cs ih =>
      intro i bi
      unfold scanBest
      rw [if_neg (by exact not_lt.2 (stubSim_le_one raw c.rep_raw))]
      exact ih (i + 1) bi

theorem scanBest_stub_char (raw : String) (cs : List Cluster) :
    ∀ i : Nat,
      scanBest stubSim raw cs i none 0 =
        (match findRawIdx raw cs with
         | some j => (some (i + j), 1)
         | none => (none, 0)) := by
  induction cs with
  | nil => intro i; rfl
  | cons c cs ih =>
      intro i
      unfold scanBest findRawIdx
      by_cases he : c.rep_raw = raw
      · have hs : stubSim raw c.rep_raw = 1 := by simp [stubSim, he.symm]
        rw [hs, if_pos (by norm_num), if_pos he, scanBest_stub_sat]
        simp
      · have hs : stubSim raw c.rep_raw = 0 := by
          simp [stubSim]
          exact fun h => he h.symm
        rw [hs, if_neg (by norm_num), if_neg he, ih (i + 1)]
        cases hf : findRawIdx raw cs with
        | none => simp
        | some j => simp [Nat.add_assoc, Nat.add_comm 1 j]

theorem thr_le_one : (82 : ℚ) / 100 ≤ 1 := by norm_num

theorem stepSem_stub_eq (raw tn : String) (m : Int) (cs : List Cluster) :
    stepSem stubSim (82 / 100) raw tn m cs =
      (match findRawIdx raw cs with
       | some j => updateClusterAt raw m cs j
       | none => cs ++ [⟨raw, tn, m, [raw]⟩]) := by
  unfold stepSem
  rw [scanBest_stub_char]
  cases findRawIdx raw cs with
  | none => rfl
  | some j =>
      show (if (82 : ℚ) / 100 ≤ 1 then updateClusterAt raw m cs (0 + j)
            else cs ++ [⟨raw, tn, m, [raw]⟩]) = updateClusterAt raw m cs j
      rw [if_pos thr_le_one, Nat.zero_add]

theorem stepSem_stub_eq_stepNone (items : List WorkItem) (raw : String) (m : Int)
    (H : normInjOn items) (hraw : raw ∈ rawsOf items) :
    ∀ cs : List Cluster, clusterInv items cs →
      stepSem stubSim (82 / 100) raw (norm_title raw) m cs =
        stepNone raw (norm_title raw) m cs := by
  intro cs
  induction cs with
  | nil => intro _; rfl
  | cons c cs ih =>
      intro hinv
      have hc := hinv c (List.mem_cons_self c cs)
      have hinv' : clusterInv items cs := fun d hd => hinv d (List.mem_cons_of_mem c hd)
      rw [stepSem_stub_eq]
      unfold findRawIdx
      by_cases he : c.rep_raw = raw
      · rw [if_pos he]
        have hnorm : c.rep_norm = norm_title raw := by rw [hc.1, he]
        show updateClusterAt raw m (c :: cs) 0 = stepNone raw (norm_title raw) m (c :: cs)
        unfold stepNone
        rw [if_pos hnorm]
        unfold updateClusterAt joinCluster
        dsimp only
        rw [if_neg (by rw [he]; exact lt_irrefl _)]
      · rw [if_neg he]
        have hnorm : ¬ c.rep_norm = norm_title raw := by
          intro hEq
          exact he (H c.rep_raw hc.2 raw hraw (by rw [← hc.1, hEq]))
        have hcs := (stepSem_stub_eq raw (norm_title raw) m cs).symm.trans (ih hinv')
        cases hf : findRawIdx raw cs with
        | none =>
            rw [hf] at hcs
            simp only [Option.map_none']
            show (c :: cs) ++ [⟨raw, norm_title raw, m, [raw]⟩] =
              stepNone raw (norm_title raw) m (c :: cs)
            unfold stepNone
            rw [if_neg hnorm, ← hcs]
            simp
        | some j =>
            rw [hf] at hcs
            simp only [Option.map_some']
            show updateClusterAt raw m (c :: cs) (j + 1) =
              stepNone raw (norm_title raw) m (c :: cs)
            unfold stepNone
            rw [if_neg hnorm]
            unfold updateClusterAt
            rw [← hcs]

theorem clusterInv_stepNone (items : List WorkItem) (raw : String) (m : Int)
    (hraw : raw ∈ rawsOf items) :
    ∀ cs : List Cluster, clusterInv items cs →
      clusterInv items (stepNone raw (norm_title raw) m cs) := by
  intro cs
  induction cs with
  | nil =>
      intro _ c hc
      simp only [stepNone, List.mem_singleton] at hc
      subst hc
      exact ⟨rfl, hraw⟩
  | cons c cs ih =>
      intro hinv d hd
      have hc := hinv c (List.mem_cons_self c cs)
      have hinv' : clusterInv items cs := fun e he => hinv e (List.mem_cons_of_mem c he)
      unfold stepNone at hd
      by_cases he : c.rep_norm = norm_title raw
      · rw [if_pos he] at hd
        rcases List.mem_cons.1 hd with h | h
        · subst h
          exact ⟨hc.1, hc.2⟩
        · exact hinv d (List.mem_cons_of_mem c h)
      · rw [if_neg he] at hd
        rcases List.mem_cons.1 hd with h | h
        · subst h; exact hc
        · exact ih hinv' d h

theorem aggStep_stub_eq_none (items : List WorkItem) (it : WorkItem)
    (H : normInjOn items) (hit : pyStrip it.title ∈ rawsOf items) :
    ∀ cs : List Cluster, clusterInv items cs →
      aggStep (some stubSim) (82 / 100) cs it = aggStep none (82 / 100) cs it := by
  intro cs hinv
  unfold aggStep
  by_cases h1 : (pyStrip it.title = "" || it.months ≤ 0) = true
  · rw [if_pos h1, if_pos h1]
  · rw [if_neg h1, if_neg h1]
    by_cases h2 : norm_title (pyStrip it.title) = ""
    · rw [if_pos h2, if_pos h2]
    · rw [if_neg h2, if_neg h2]
      exact stepSem_stub_eq_stepNone items (pyStrip it.title) it.months H hit cs hinv

theorem clusterInv_aggStep_none (items : List WorkItem) (it : WorkItem)
    (hit : pyStrip it.title ∈ rawsOf items) (cs : List Cluster)
    (hinv : clusterInv items cs) :
    clusterInv items (aggStep none (82 / 100) cs it) := by
  unfold aggStep
  by_cases h1 : (pyStrip it.title = "" || it.months ≤ 0) = true
  · rw [if_pos h1]; exact hinv
  · rw [if_neg h1]
    by_cases h2 : norm_title (pyStrip it.title) = ""
    · rw [if_pos h2]; exact hinv
    · rw [if_neg h2]
      exact clusterInv_stepNone items (pyStrip it.title) it.months hit cs hinv

theorem foldl_stub_eq_none (items : List WorkItem) (H : normInjOn items) :
    ∀ (l : List WorkItem), (∀ it ∈ l, it ∈ items) →
      ∀ cs : List Cluster, clusterInv items cs →
        l.foldl (aggStep (some stubSim) (82 / 100)) cs =
          l.foldl (aggStep none (82 / 100)) cs := by
  intro l
  induction l with
  | nil => intro _ cs _; rfl
  | cons it l ih =>
      intro hl cs hinv
      have hit : pyStrip it.title ∈ rawsOf items :=
        List.mem_map_of_mem (fun it => pyStrip it.title) (hl it (List.mem_cons_self it l))
      simp only [List.foldl_cons]
      rw [aggStep_stub_eq_none items it H hit cs hinv]
      exact ih (fun x hx => hl x (List.mem_cons_of_mem it hx))
        (aggStep none (82 / 100) cs it)
        (clusterInv_aggStep_none items it hit cs hinv)

/-- Claim C5 counterexample: .  With the stub oracle (1.0 on identical strings,
0.0 otherwise), clustering differs from exact normalized-key bucketing:
the titles "Driver" and "driver" share one normalized key, so the
no-oracle mode folds them into a single 12-month cluster, while the stub
oracle scores them 0.0 and produces two clusters. -/
theorem claim5_counterexample_stub_differs :
    aggregate_months_by_title c5Items (some stubSim) ≠
      aggregate_months_by_title c5Items none := by decide

/-- Claim C5 amended: .  With the stub oracle, clustering coincides with exact
RAW-title bucketing; it equals the no-oracle (normalized-key) clustering
exactly on item lists whose titles are separated by normalization, i.e.
where two (stripped) titles with equal normalized keys are already equal
as strings — the counterexample "Driver"/"driver" violates precisely
this. -/
theorem claim5_amended_stub_equals_exact_on_norm_separated
    (items : List WorkItem) (H : normInjOn items) :
    aggregate_months_by_title items (some stubSim) =
      aggregate_months_by_title items none := by
  unfold aggregate_months_by_title
  exact congrArg finalizeClusters
    (foldl_stub_eq_none items H items (fun _ h => h) [] (fun c hc => absurd hc (by simp)))

/-- Witness for C5 on a list with a repeated verbatim title and distinct
roles. -/
theorem claim5_witness :
    aggregate_months_by_title c5WitnessItems (some stubSim) =
      aggregate_months_by_title c5WitnessItems none :=
  claim5_amended_stub_equals_exact_on_norm_separated c5WitnessItems
    (by unfold normInjOn rawsOf; decide)

theorem splitAnyL_eq_single (seps : List Char) (l : List Char)
    (h : ∀ c ∈ l, seps.contains c = false) : splitAnyL seps l = [l] := by
  induction l with
  | nil => rfl
  | cons c cs ih =>
      unfold splitAnyL
      rw [h c (List.mem_cons_self c cs)]
      simp only [Bool.false_eq_true, if_false]
      rw [ih (fun x hx => h x (List.mem_cons_of_mem c hx))]

/-- Claim C8 counterexample: .  The duty splitter is not idempotent: on the
text `"a, b. one two three four five six seven eight nine ten"` the
word-count heuristic picks the sentence-punctuation policy and emits the
piece `"a, b"`; re-splitting that piece (now below the word threshold)
splits at the comma. -/
theorem claim8_counterexample_not_idempotent :
    split_duties c8Text = ["a, b", "one two three four five six seven eight nine ten"] ∧
    split_duties "a, b" ≠ ["a, b"] := by
  constructor
  · rfl
  · decide

/-- Claim C8 amended: .  The splitter is idempotent on every single-duty string
that it can emit and that the parenthesis-aware splitter leaves whole: if
`d` is non-empty, fixed under stripping and duty-piece trimming, carries no
newline, no bullet marker, no duties-header prefix, is not itself a bare
header word, and `split_outside_parens` leaves it whole for both separator
policies (no un-parenthesised `,`/`.`/`;` at the operative positions),
then `split_duties d = [d]`.  The counterexample piece `"a, b"` violates
exactly the last condition. -/
theorem claim8_amended_idempotent_on_whole_pieces
    (d : String)
    (h1 : d ≠ "")
    (h2 : pyStrip d = d)
    (h3 : trimDutyPiece d = some d)
    (h4 : strip_headers d = d)
    (h5 : dutyHeaderWords.contains (pyLower d) = false)
    (h6 : ∀ c ∈ d.data, c ≠ '\n')
    (h7 : is_bullet_line d = false)
    (h8 : split_outside_parens d ['.', ';'] = [d])
    (h9 : split_outside_parens d [',', '.', ';'] = [d]) :
    split_duties d = [d] := by
  have hsl : pySplitlines d = [d] := by
    unfold pySplitlines
    rw [splitAnyL_eq_single _ _ (fun c hc => by simp [h6 c hc])]
    rfl
  have hjoin : joinSpace [d] = d := rfl
  unfold split_duties
  rw [h2, if_neg h1, h4]
  rw [if_neg (by rw [h5]; simp [h1] : ¬ (d = "" || dutyHeaderWords.contains (pyLower d)) = true)]
  rw [hsl]
  simp only [List.map_cons, List.map_nil, h2, List.filter_cons, List.filter_nil]
  rw [if_pos (by simp [h1] : (decide ¬d = "") = true)]
  simp only [List.map_cons, List.map_nil, h4, List.filter_cons, List.filter_nil]
  rw [if_pos (by rw [h5]; simp [h1] :
    (decide ¬d = "" && !dutyHeaderWords.contains (pyLower d)) = true)]
  simp only [List.isEmpty_cons, Bool.false_eq_true, if_false]
  simp only [List.filter_cons, List.filter_nil, h7, Bool.false_eq_true, if_false,
    List.isEmpty_nil, Bool.not_true, hjoin, h2]
  rw [if_neg h1]
  rw [h8, h9]
  simp only [List.filterMap_cons, List.filterMap_nil, h3, ite_self]

/-- Witness for C8 at a concrete separator-free duty string. -/
theorem claim8_witness :
    split_duties "Drove category B vehicle" = ["Drove category B vehicle"] :=
  claim8_amended_idempotent_on_whole_pieces "Drove category B vehicle"
    (by decide) (by decide) (by decide) (by decide) (by decide)
    (by decide) (by decide) (by decide) (by decide)

end WorkUA
